import Mathlib

/- Formal model of the generational slot allocators of the `example_allocators`
   crate: kyren_generational_indices.rs, memory_allocators.rs and
   allocator_with_pointer.rs.

   Conventions of the embedding:
   * Rust `Vec<T>` / `VecDeque<T>` become `List`s.  The kyren free lists are
     `VecDeque`s used as queues: `push_back` is modelled by appending at the
     tail and `pop_front` by taking the head.  The free lists of the other
     allocators are `Vec`s used as stacks: `push`/`pop` act on one and the same
     end of the vector, modelled here at the head of the list.
   * Rust `Vec` indexing `v[i]` aborts when `i` is out of range, so every
     operation that indexes is modelled as an `Option`-valued function where
     `none` is the abort (panic) outcome and `some` the normal return.
   * Generations are `u32` values, modelled as `Nat` together with the checked
     increment `u32add1`: in the configuration under which this crate's tests
     run (debug assertions enabled) `+= 1` aborts on overflow instead of
     wrapping, so an increment yields either the successor or the panic
     outcome, and a stored generation never decreases.
   * `MaybeUninit<T>` slots are modelled as `Option T`: `none` stands for
     memory whose content has been dropped (or never initialised), `some v`
     for initialised memory holding `v`.
   * `debug_assert!` is compiled in only when debug assertions are enabled;
     operations guarded by one take an explicit `dbg : Bool` flag recording
     whether they are.  A `panic!` is unconditional.
   * The heap blocks handed out by the pointer-based allocators never move, so
     a raw value pointer is modelled as the position of its block in the
     allocator's entry vector (distinct positions are distinct addresses).
-/

/-- Largest value of `u32`. -/
def U32MAX : Nat := 4294967295

/-- Checked `u32` increment: `g += 1` aborts when `g` is `u32::MAX`. -/
def u32add1 (g : Nat) : Option Nat :=
  if g < U32MAX then some (g + 1) else none

/-- Handle type `GenerationalIndex { index: usize, generation: u32 }`.  The
same structure is declared in both kyren_generational_indices.rs and
memory_allocators.rs; both are modelled by this one type. -/
structure GenerationalIndex where
  index : Nat
  generation : Nat
deriving DecidableEq

namespace Kyren

/-- `GenerationalIndices { indices: Vec<u32>, free: VecDeque<usize> }`
(kyren_generational_indices.rs): the bare table, generations indexed by slot
number, plus a queue of free slot numbers. -/
structure GenerationalIndices where
  indices : List Nat
  free : List Nat
deriving DecidableEq

namespace GenerationalIndices

/-- `GenerationalIndices::new`: if the free queue is empty, append a fresh
slot with generation 0 and hand out its index; otherwise pop the front of the
free queue and pair it with that slot's current generation. -/
def new? (s : GenerationalIndices) : Option (GenerationalIndex × GenerationalIndices) :=
  match s.free with
  | [] =>
    some (⟨s.indices.length, 0⟩, ⟨s.indices ++ [0], []⟩)
  | i :: rest =>
    match s.indices[i]? with
    | none => none
    | some g => some (⟨i, g⟩, ⟨s.indices, rest⟩)

/-- `GenerationalIndices::is_live`: compare the handle's generation with the
slot's current generation.  Indexing panics (`none`) when the handle's index
is out of range. -/
def is_live? (s : GenerationalIndices) (h : GenerationalIndex) : Option Bool :=
  (s.indices[h.index]?).map (fun g => h.generation == g)

/-- `GenerationalIndices::free`: a dead handle is ignored (early `return`);
a live one has its index pushed to the back of the free queue and its slot
generation incremented. -/
def free? (s : GenerationalIndices) (h : GenerationalIndex) : Option GenerationalIndices :=
  match s.indices[h.index]? with
  | none => none
  | some g =>
    if h.generation = g then
      match u32add1 g with
      | none => none
      | some g1 => some ⟨s.indices.set h.index g1, s.free ++ [h.index]⟩
    else
      some s

/-- One externally visible call on the table (`new` discards the returned
handle, `free` takes the handle to release). -/
inductive Op where
  | alloc : Op
  | free : GenerationalIndex → Op
deriving DecidableEq

/-- Apply one call to the table state. -/
def step? (s : GenerationalIndices) : Op → Option GenerationalIndices
  | Op.alloc => (s.new?).map Prod.snd
  | Op.free h => s.free? h

/-- Apply a sequence of calls to the table state. -/
def run? (s : GenerationalIndices) : List Op → Option GenerationalIndices
  | [] => some s
  | op :: ops =>
    match s.step? op with
    | none => none
    | some s1 => s1.run? ops

end GenerationalIndices

/-- `GenerationalArrayEntry<T> { item: Option<T>, generation: u32 }`
(kyren_generational_indices.rs). -/
structure GenerationalArrayEntry (α : Type) where
  item : Option α
  generation : Nat
deriving DecidableEq

/-- `GenerationalIndexArray<T> { elements: Vec<GenerationalArrayEntry<T>>,
free: VecDeque<usize> }` (kyren_generational_indices.rs): the kyren table
with one value slot per entry. -/
structure GenerationalIndexArray (α : Type) where
  elements : List (GenerationalArrayEntry α)
  free : List Nat
deriving DecidableEq

namespace GenerationalIndexArray

variable {α : Type}

/-- `GenerationalIndexArray::new`: if the free queue is empty, append an
occupied slot with generation 0; otherwise pop the front free index, store
the element there and pair the index with the slot's current generation. -/
def new? (s : GenerationalIndexArray α) (element : α) :
    Option (GenerationalIndex × GenerationalIndexArray α) :=
  match s.free with
  | [] =>
    some (⟨s.elements.length, 0⟩, ⟨s.elements ++ [⟨some element, 0⟩], s.free⟩)
  | i :: rest =>
    match s.elements[i]? with
    | none => none
    | some e =>
      some (⟨i, e.generation⟩, ⟨s.elements.set i ⟨some element, e.generation⟩, rest⟩)

/-- `GenerationalIndexArray::is_live`: generation comparison, aborting when
the handle's index is outside the element vector. -/
def is_live? (s : GenerationalIndexArray α) (h : GenerationalIndex) : Option Bool :=
  (s.elements[h.index]?).map (fun e => h.generation == e.generation)

/-- `GenerationalIndexArray::free`: freeing a dead handle aborts
("Trying to free an already dead index"); freeing a live one pushes its index
to the back of the free queue, bumps the generation and drops the item. -/
def free? (s : GenerationalIndexArray α) (h : GenerationalIndex) :
    Option (GenerationalIndexArray α) :=
  match s.elements[h.index]? with
  | none => none
  | some e =>
    if h.generation = e.generation then
      match u32add1 e.generation with
      | none => none
      | some g1 => some ⟨s.elements.set h.index ⟨none, g1⟩, s.free ++ [h.index]⟩
    else
      none

/-- `GenerationalIndexArray::get`: `none` is the out-of-range abort, `some
none` the "absent" answer for a dead handle, `some e.item` the reference into
the slot for a live one. -/
def get? (s : GenerationalIndexArray α) (h : GenerationalIndex) : Option (Option α) :=
  match s.elements[h.index]? with
  | none => none
  | some e => if h.generation = e.generation then some e.item else some none

/-- `GenerationalIndexArray::get_mut`: same liveness gating as `get`. -/
def get_mut? (s : GenerationalIndexArray α) (h : GenerationalIndex) : Option (Option α) :=
  match s.elements[h.index]? with
  | none => none
  | some e => if h.generation = e.generation then some e.item else some none

/-- One externally visible call on the value array. -/
inductive Op (α : Type) where
  | alloc : α → Op α
  | free : GenerationalIndex → Op α
deriving DecidableEq

/-- Run a call sequence, remembering every handle the allocator has handed
out.  Handles are not forgeable by clients (the fields of
`GenerationalIndex` are private), so a `free` of a handle that was never
issued is not a client-reachable call; it makes the run stuck (`none`). -/
def runIssued? (s : GenerationalIndexArray α) (issued : List GenerationalIndex) :
    List (Op α) → Option (GenerationalIndexArray α × List GenerationalIndex)
  | [] => some (s, issued)
  | Op.alloc v :: ops =>
    match s.new? v with
    | none => none
    | some (h, s1) => runIssued? s1 (issued ++ [h]) ops
  | Op.free h :: ops =>
    if h ∈ issued then
      match s.free? h with
      | none => none
      | some s1 => runIssued? s1 issued ops
    else
      none

/-- Reachable-state invariant of the value array: the free queue has no
duplicates, every free index denotes a vacant slot, every issued handle's
generation is bounded by its slot's current generation, and every issued
handle that is still live denotes an occupied slot, with matching
generation, whose index is not in the free queue. -/
def Inv (s : GenerationalIndexArray α) (issued : List GenerationalIndex) : Prop :=
  s.free.Nodup ∧
  (∀ i ∈ s.free, ∃ e, s.elements[i]? = some e ∧ e.item = none) ∧
  (∀ h ∈ issued, ∃ e, s.elements[h.index]? = some e ∧ h.generation ≤ e.generation) ∧
  (∀ h ∈ issued, s.is_live? h = some true →
      h.index ∉ s.free ∧
      ∃ e, s.elements[h.index]? = some e ∧ e.generation = h.generation ∧ e.item ≠ none)

end GenerationalIndexArray

end Kyren
namespace MemAlloc

/-- `GenerationalPointerEntry<T> { generation: Generation,
ptr: Box<MaybeUninit<T>> }` (memory_allocators.rs). -/
structure GenerationalPointerEntry (α : Type) where
  generation : Nat
  ptr : Option α
deriving DecidableEq

/-- `GenerationalPointersArray<T> { entries: Vec<GenerationalPointerEntry<T>>,
free: Vec<usize> }` (memory_allocators.rs): handle-based allocator whose free
list is a stack. -/
structure GenerationalPointersArray (α : Type) where
  entries : List (GenerationalPointerEntry α)
  free : List Nat
deriving DecidableEq

namespace GenerationalPointersArray

variable {α : Type}

/-- `GenerationalPointersArray::allocate`: `T : Default`, so allocation
writes `T::default()` (the argument `d`).  Empty free list: push a fresh
entry with generation 0 (`_allocate_entry`) and return index = old length,
generation 0.  Otherwise pop the top free index and reinitialise that
entry's memory, returning its current generation. -/
def allocate? (s : GenerationalPointersArray α) (d : α) :
    Option (GenerationalIndex × GenerationalPointersArray α) :=
  match s.free with
  | [] =>
    some (⟨s.entries.length, 0⟩, ⟨s.entries ++ [⟨0, some d⟩], s.free⟩)
  | i :: rest =>
    match s.entries[i]? with
    | none => none
    | some e =>
      some (⟨i, e.generation⟩, ⟨s.entries.set i ⟨e.generation, some d⟩, rest⟩)

/-- `GenerationalPointersArray::is_live`: generation comparison; indexing
aborts out of range. -/
def is_live? (s : GenerationalPointersArray α) (h : GenerationalIndex) : Option Bool :=
  (s.entries[h.index]?).map (fun e => h.generation == e.generation)

/-- `GenerationalPointersArray::get`: `None` (`some none`) for a dead handle,
otherwise a mutable reference into the entry's memory, modelled by the
memory's current content. -/
def get? (s : GenerationalPointersArray α) (h : GenerationalIndex) : Option (Option α) :=
  match s.entries[h.index]? with
  | none => none
  | some e => if h.generation = e.generation then some e.ptr else some none

/-- A caller writing `v` through the mutable reference returned by `get`:
when `get` answers `Some`, the referenced memory now holds `v`; when it
answers `None`, nothing is written. -/
def put? (s : GenerationalPointersArray α) (h : GenerationalIndex) (v : α) :
    Option (GenerationalPointersArray α) :=
  match s.entries[h.index]? with
  | none => none
  | some e =>
    if h.generation = e.generation then
      some ⟨s.entries.set h.index ⟨e.generation, some v⟩, s.free⟩
    else
      some s

/-- `GenerationalPointersArray::free`: freeing a dead handle panics
("Trying to free already unused index"); freeing a live one pushes its index
on the free stack, bumps the generation and drops the memory. -/
def free? (s : GenerationalPointersArray α) (h : GenerationalIndex) :
    Option (GenerationalPointersArray α) :=
  match s.entries[h.index]? with
  | none => none
  | some e =>
    if h.generation = e.generation then
      match u32add1 e.generation with
      | none => none
      | some g1 => some ⟨s.entries.set h.index ⟨g1, none⟩, h.index :: s.free⟩
    else
      none

end GenerationalPointersArray

/-- `EntityEntry<T> { header: EntryHeader { generation: Generation },
item: MaybeUninit<T> }` (memory_allocators.rs, `repr(C)`): one boxed heap
block, header immediately before the value. -/
structure EntityEntry (α : Type) where
  generation : Nat
  item : Option α
deriving DecidableEq

/-- `EntityPtr<T> { ptr: *mut T, generation: Generation }`
(memory_allocators.rs).  The raw value pointer is modelled as the position of
its block among the allocator's boxed blocks, which never move. -/
structure EntityPtr (α : Type) where
  addr : Nat
  generation : Nat
deriving DecidableEq

/-- `EntityAllocator<T> { free: Vec<*mut T>, entries: Vec<Box<EntityEntry<T>>> }`
(memory_allocators.rs): free list of value addresses, used as a stack. -/
structure EntityAllocator (α : Type) where
  entries : List (EntityEntry α)
  free : List Nat
deriving DecidableEq

namespace EntityAllocator

variable {α : Type}

/-- `EntityAllocator::allocate(init_fn)`: `init_fn` mutates the block's value
memory in place, modelled as a function from the memory's current content
(`none` when the previous value was dropped) to the new value.  A fresh
block's memory is first written with `T::default()` (the argument `d`) and
then initialised; a reused block (popped from the free stack) is passed to
`init_fn` as is, and the returned pointer captures the block's current
header generation. -/
def allocate? (s : EntityAllocator α) (d : α) (init_fn : Option α → α) :
    Option (EntityPtr α × EntityAllocator α) :=
  match s.free with
  | [] =>
    some (⟨s.entries.length, 0⟩,
      ⟨s.entries ++ [⟨0, some (init_fn (some d))⟩], s.free⟩)
  | a :: rest =>
    match s.entries[a]? with
    | none => none
    | some e =>
      some (⟨a, e.generation⟩,
        ⟨s.entries.set a ⟨e.generation, some (init_fn e.item)⟩, rest⟩)

/-- `EntityPtr::is_live`: recover the header from the value pointer
(`EntityEntry::from_ptr`) and compare its generation with the captured one.
In the model the block is looked up in the allocator that issued the
pointer. -/
def is_live? (s : EntityAllocator α) (p : EntityPtr α) : Option Bool :=
  (s.entries[p.addr]?).map (fun e => p.generation == e.generation)

/-- `EntityAllocator::free`: freeing a dead pointer panics
("Trying to free already unused index"); freeing a live one bumps the header
generation, drops the value and pushes the value address on the free
stack. -/
def free? (s : EntityAllocator α) (p : EntityPtr α) : Option (EntityAllocator α) :=
  match s.entries[p.addr]? with
  | none => none
  | some e =>
    if p.generation = e.generation then
      match u32add1 e.generation with
      | none => none
      | some g1 => some ⟨s.entries.set p.addr ⟨g1, none⟩, p.addr :: s.free⟩
    else
      none

/-- `Deref`/`DerefMut` for `EntityPtr`: guarded by `debug_assert!(
self.is_live(), "Trying to deref invalid entity ptr")`, which is compiled in
only when `dbg` (debug assertions) holds; past the assert the raw value
memory is read unconditionally (`some e.item`; `some none` is a read of
dropped memory). -/
def deref? (dbg : Bool) (s : EntityAllocator α) (p : EntityPtr α) : Option (Option α) :=
  match s.entries[p.addr]? with
  | none => none
  | some e =>
    if dbg ∧ ¬(p.generation = e.generation) then none
    else some e.item

end EntityAllocator

/-- `InPlaceAllocEntry<T> { mem: MaybeUninit<T>, generation: Generation }`
(memory_allocators.rs): a slot of the contiguous in-place allocator. -/
structure InPlaceAllocEntry (α : Type) where
  mem : Option α
  generation : Nat
deriving DecidableEq

/-- `InPlaceMemoryAllocator<T> { entries: Vec<InPlaceAllocEntry<T>>,
free: Vec<usize> }` (memory_allocators.rs): all values contiguous, free list
a stack. -/
structure InPlaceMemoryAllocator (α : Type) where
  entries : List (InPlaceAllocEntry α)
  free : List Nat
deriving DecidableEq

namespace InPlaceMemoryAllocator

variable {α : Type}

/-- `InPlaceMemoryAllocator::allocate`: same control flow as
`GenerationalPointersArray::allocate`, writing `T::default()` (the argument
`d`) into a fresh or reused slot. -/
def allocate? (s : InPlaceMemoryAllocator α) (d : α) :
    Option (GenerationalIndex × InPlaceMemoryAllocator α) :=
  match s.free with
  | [] =>
    some (⟨s.entries.length, 0⟩, ⟨s.entries ++ [⟨some d, 0⟩], s.free⟩)
  | i :: rest =>
    match s.entries[i]? with
    | none => none
    | some e =>
      some (⟨i, e.generation⟩, ⟨s.entries.set i ⟨some d, e.generation⟩, rest⟩)

/-- `InPlaceMemoryAllocator::is_live`: generation comparison; indexing
aborts out of range. -/
def is_live? (s : InPlaceMemoryAllocator α) (h : GenerationalIndex) : Option Bool :=
  (s.entries[h.index]?).map (fun e => h.generation == e.generation)

/-- `InPlaceMemoryAllocator::get`: guarded by `debug_assert!(self.is_live(
index), "Trying to retrieve uninitialized memory")`, compiled in only when
`dbg` holds; past the assert the slot's memory is returned unconditionally
as a mutable reference, modelled by its current content. -/
def get? (dbg : Bool) (s : InPlaceMemoryAllocator α) (h : GenerationalIndex) :
    Option (Option α) :=
  match s.entries[h.index]? with
  | none => none
  | some e =>
    if dbg ∧ ¬(h.generation = e.generation) then none
    else some e.mem

/-- A caller writing `v` through the mutable reference returned by `get`
(same guard as `get`). -/
def put? (dbg : Bool) (s : InPlaceMemoryAllocator α) (h : GenerationalIndex) (v : α) :
    Option (InPlaceMemoryAllocator α) :=
  match s.entries[h.index]? with
  | none => none
  | some e =>
    if dbg ∧ ¬(h.generation = e.generation) then none
    else some ⟨s.entries.set h.index ⟨some v, e.generation⟩, s.free⟩

/-- `InPlaceMemoryAllocator::free`: freeing a dead handle panics
("Trying to free already unused index"); freeing a live one pushes its index
on the free stack, bumps the generation and drops the value. -/
def free? (s : InPlaceMemoryAllocator α) (h : GenerationalIndex) :
    Option (InPlaceMemoryAllocator α) :=
  match s.entries[h.index]? with
  | none => none
  | some e =>
    if h.generation = e.generation then
      match u32add1 e.generation with
      | none => none
      | some g1 => some ⟨s.entries.set h.index ⟨none, g1⟩, h.index :: s.free⟩
    else
      none

end InPlaceMemoryAllocator

end MemAlloc

namespace PtrAlloc

/-- `Entry<T> { generation: Generation, value: MaybeUninit<T> }`
(allocator_with_pointer.rs): one boxed slot. -/
structure Entry (α : Type) where
  generation : Nat
  value : Option α
deriving DecidableEq

/-- `EntityPtr<T> { generation: Generation, ptr: *mut Entry<T> }`
(allocator_with_pointer.rs); the raw entry pointer is modelled as the
position of the boxed entry, which never moves. -/
structure EntityPtr (α : Type) where
  addr : Nat
  generation : Nat
deriving DecidableEq

/-- `Allocator<T> { entries: Vec<Box<Entry<T>>>, free: Vec<*mut Entry<T>> }`
(allocator_with_pointer.rs): free list of entry pointers, used as a
stack. -/
structure Allocator (α : Type) where
  entries : List (Entry α)
  free : List Nat
deriving DecidableEq

namespace Allocator

variable {α : Type}

/-- `Allocator::new`: if the free stack is empty, box a fresh entry with
generation 0, write the element and return a pointer with generation 0;
otherwise pop an entry pointer, write the element into it and capture its
current generation. -/
def new? (s : Allocator α) (element : α) : Option (EntityPtr α × Allocator α) :=
  match s.free with
  | [] =>
    some (⟨s.entries.length, 0⟩, ⟨s.entries ++ [⟨0, some element⟩], s.free⟩)
  | a :: rest =>
    match s.entries[a]? with
    | none => none
    | some e =>
      some (⟨a, e.generation⟩, ⟨s.entries.set a ⟨e.generation, some element⟩, rest⟩)

/-- `EntityPtr::is_live` (allocator_with_pointer.rs): compare the captured
generation with the pointed-to entry's generation. -/
def is_live? (s : Allocator α) (p : EntityPtr α) : Option Bool :=
  (s.entries[p.addr]?).map (fun e => p.generation == e.generation)

/-- `Allocator::free`: guarded only by `debug_assert!(ptr.is_live(), "Trying
to double-free a pointer")`, compiled in only when `dbg` holds; past the
assert the pointer is pushed on the free stack, the generation bumped and
the value dropped unconditionally, even for a dead pointer. -/
def free? (dbg : Bool) (s : Allocator α) (p : EntityPtr α) : Option (Allocator α) :=
  match s.entries[p.addr]? with
  | none => none
  | some e =>
    if dbg ∧ ¬(p.generation = e.generation) then none
    else
      match u32add1 e.generation with
      | none => none
      | some g1 => some ⟨s.entries.set p.addr ⟨g1, none⟩, p.addr :: s.free⟩

/-- `Deref`/`DerefMut` for `EntityPtr` (allocator_with_pointer.rs): guarded
by `debug_assert!(self.is_live(), "Trying to deref free pointer")`, compiled
in only when `dbg` holds; past the assert the value memory is read
unconditionally. -/
def deref? (dbg : Bool) (s : Allocator α) (p : EntityPtr α) : Option (Option α) :=
  match s.entries[p.addr]? with
  | none => none
  | some e =>
    if dbg ∧ ¬(p.generation = e.generation) then none
    else some e.value

end Allocator

end PtrAlloc

theorem getElem?_some_lt {β : Type _} {l : List β} {i : Nat} {x : β}
    (hx : l[i]? = some x) : i < l.length := by
  by_contra hcon
  push_neg at hcon
  rw [List.getElem?_eq_none hcon] at hx
  exact Option.noConfusion hx

theorem getElem?_append_single {β : Type _} {l : List β} {i : Nat} {x y : β}
    (hx : l[i]? = some x) : (l ++ [y])[i]? = some x := by
  rw [List.getElem?_append_left (getElem?_some_lt hx)]
  exact hx

namespace Kyren.GenerationalIndices

theorem gi_is_live_iff {s : GenerationalIndices} {h : GenerationalIndex} {b : Bool} :
    s.is_live? h = some b ↔ ∃ g, s.indices[h.index]? = some g ∧ (h.generation == g) = b := by
  simp only [is_live?, Option.map_eq_some']

theorem free?_of_dead {s : GenerationalIndices} {h : GenerationalIndex}
    (hd : s.is_live? h = some false) : s.free? h = some s := by
  rcases gi_is_live_iff.mp hd with ⟨g, hg, hb⟩
  simp only [beq_eq_false_iff_ne, ne_eq] at hb
  unfold free?
  rw [hg]
  simp [hb]

theorem free?_of_live {s : GenerationalIndices} {h : GenerationalIndex} {g : Nat}
    (hg : s.indices[h.index]? = some g) (hl : h.generation = g) (hlt : g < U32MAX) :
    s.free? h = some ⟨s.indices.set h.index (g + 1), s.free ++ [h.index]⟩ := by
  unfold free? u32add1
  rw [hg]
  simp [hl, hlt]

/-- Generations present in the table never decrease (and never disappear)
across a single successful call. -/
theorem step?_mono {s s' : GenerationalIndices} {op : Op}
    (hs : s.step? op = some s') :
    ∀ (i g : Nat), s.indices[i]? = some g → ∃ g', s'.indices[i]? = some g' ∧ g ≤ g' := by
  intro i g hi
  obtain ⟨ind, fr⟩ := s
  simp only at hi
  cases op with
  | alloc =>
    cases fr with
    | nil =>
      simp only [step?, new?, Option.map_eq_some'] at hs
      rcases hs with ⟨p, hp, hsnd⟩
      cases hp
      subst hsnd
      refine ⟨g, ?_, le_refl g⟩
      have hlen : i < ind.length := by
        by_contra hcon
        push_neg at hcon
        rw [List.getElem?_eq_none hcon] at hi
        exact Option.noConfusion hi
      simp only []
      rw [List.getElem?_append_left hlen]
      exact hi
    | cons j rest =>
      simp only [step?, new?] at hs
      cases hj : ind[j]? with
      | none => rw [hj] at hs; simp at hs
      | some gj =>
        rw [hj] at hs
        simp only [Option.map_some', Option.some_inj] at hs
        subst hs
        exact ⟨g, hi, le_refl g⟩
  | free h =>
    simp only [step?, free?] at hs
    cases hg : ind[h.index]? with
    | none => rw [hg] at hs; simp at hs
    | some gh =>
      rw [hg] at hs
      simp only [] at hs
      by_cases hlive : h.generation = gh
      · rw [if_pos hlive] at hs
        unfold u32add1 at hs
        by_cases hlt : gh < U32MAX
        · rw [if_pos hlt] at hs
          simp only [Option.some_inj] at hs
          subst hs
          by_cases hidx : h.index = i
          · subst hidx
            have hgg : g = gh := by
              rw [hi] at hg
              exact Option.some_inj.mp hg
            have hlen : h.index < ind.length := by
              by_contra hcon
              push_neg at hcon
              rw [List.getElem?_eq_none hcon] at hi
              exact Option.noConfusion hi
            refine ⟨gh + 1, ?_, ?_⟩
            · simp only []
              rw [List.getElem?_set_self hlen]
            · omega
          · refine ⟨g, ?_, le_refl g⟩
            simp only []
            rw [List.getElem?_set_ne hidx]
            exact hi
        · rw [if_neg hlt] at hs
          simp at hs
      · rw [if_neg hlive] at hs
        simp only [Option.some_inj] at hs
        subst hs
        exact ⟨g, hi, le_refl g⟩

/-- Generations present in the table never decrease across any successful
sequence of calls. -/
theorem run?_mono {s s' : GenerationalIndices} {ops : List Op}
    (hs : s.run? ops = some s') :
    ∀ (i g : Nat), s.indices[i]? = some g → ∃ g', s'.indices[i]? = some g' ∧ g ≤ g' := by
  induction ops generalizing s with
  | nil =>
    intro i g hi
    unfold run? at hs
    simp only [Option.some_inj] at hs
    subst hs
    exact ⟨g, hi, le_refl g⟩
  | cons op ops ih =>
    intro i g hi
    unfold run? at hs
    cases hstep : s.step? op with
    | none => rw [hstep] at hs; exact Option.noConfusion hs
    | some s1 =>
      rw [hstep] at hs
      rcases step?_mono hstep i g hi with ⟨g1, hg1, hle1⟩
      rcases ih hs i g1 hg1 with ⟨g2, hg2, hle2⟩
      exact ⟨g2, hg2, le_trans hle1 hle2⟩

theorem new?_fresh_live {s s' : GenerationalIndices} {h : GenerationalIndex}
    (hs : s.new? = some (h, s')) : s'.is_live? h = some true := by
  obtain ⟨ind, fr⟩ := s
  cases fr with
  | nil =>
    simp only [new?, Option.some_inj, Prod.mk.injEq] at hs
    obtain ⟨hh, hst⟩ := hs
    subst hh
    subst hst
    simp only [is_live?]
    rw [List.getElem?_concat_length]
    simp
  | cons j rest =>
    simp only [new?] at hs
    cases hj : ind[j]? with
    | none => rw [hj] at hs; simp at hs
    | some gj =>
      rw [hj] at hs
      simp only [Option.some_inj, Prod.mk.injEq] at hs
      obtain ⟨hh, hst⟩ := hs
      subst hh
      subst hst
      simp [is_live?, hj]

theorem new?_preserves_is_live {s s' : GenerationalIndices} {x h : GenerationalIndex} {b : Bool}
    (hl : s.is_live? h = some b) (hs : s.new? = some (x, s')) : s'.is_live? h = some b := by
  rcases gi_is_live_iff.mp hl with ⟨g, hg, hb⟩
  obtain ⟨ind, fr⟩ := s
  simp only at hg
  cases fr with
  | nil =>
    simp only [new?, Option.some_inj, Prod.mk.injEq] at hs
    obtain ⟨hh, hst⟩ := hs
    subst hst
    have hlen : h.index < ind.length := by
      by_contra hcon
      push_neg at hcon
      rw [List.getElem?_eq_none hcon] at hg
      exact Option.noConfusion hg
    apply gi_is_live_iff.mpr
    refine ⟨g, ?_, hb⟩
    simp only []
    rw [List.getElem?_append_left hlen]
    exact hg
  | cons j rest =>
    simp only [new?] at hs
    cases hj : ind[j]? with
    | none => rw [hj] at hs; simp at hs
    | some gj =>
      rw [hj] at hs
      simp only [Option.some_inj, Prod.mk.injEq] at hs
      obtain ⟨hh, hst⟩ := hs
      subst hst
      exact gi_is_live_iff.mpr ⟨g, hg, hb⟩

/-- If a live handle is freed, the state is exactly: its slot's generation
bumped by one and its index appended to the back of the free queue. -/
theorem free?_live_state {s s' : GenerationalIndices} {h : GenerationalIndex}
    (hl : s.is_live? h = some true) (hs : s.free? h = some s') :
    ∃ g, s.indices[h.index]? = some g ∧ h.generation = g ∧
      s' = ⟨s.indices.set h.index (g + 1), s.free ++ [h.index]⟩ := by
  rcases gi_is_live_iff.mp hl with ⟨g, hg, hb⟩
  simp only [beq_iff_eq] at hb
  unfold free? at hs
  rw [hg] at hs
  simp only [] at hs
  rw [if_pos hb] at hs
  unfold u32add1 at hs
  by_cases hlt : g < U32MAX
  · rw [if_pos hlt] at hs
    simp only [Option.some_inj] at hs
    exact ⟨g, hg, hb, hs.symm⟩
  · rw [if_neg hlt] at hs
    simp at hs

theorem free?_preserves_live_other {s s' : GenerationalIndices} {h h' : GenerationalIndex}
    (hl : s.is_live? h = some true) (hne : h'.index ≠ h.index)
    (hs : s.free? h' = some s') : s'.is_live? h = some true := by
  rcases gi_is_live_iff.mp hl with ⟨g, hg, hb⟩
  unfold free? at hs
  cases hg' : s.indices[h'.index]? with
  | none => rw [hg'] at hs; simp at hs
  | some g' =>
    rw [hg'] at hs
    simp only [] at hs
    by_cases hlive : h'.generation = g'
    · rw [if_pos hlive] at hs
      unfold u32add1 at hs
      by_cases hlt : g' < U32MAX
      · rw [if_pos hlt] at hs
        simp only [Option.some_inj] at hs
        subst hs
        apply gi_is_live_iff.mpr
        refine ⟨g, ?_, hb⟩
        simp only []
        rw [List.getElem?_set_ne hne]
        exact hg
      · rw [if_neg hlt] at hs
        simp at hs
    · rw [if_neg hlive] at hs
      simp only [Option.some_inj] at hs
      subst hs
      exact hl

theorem free?_kills {s s' : GenerationalIndices} {h : GenerationalIndex}
    (hl : s.is_live? h = some true) (hs : s.free? h = some s') :
    s'.is_live? h = some false := by
  rcases free?_live_state hl hs with ⟨g, hg, hb, hst⟩
  subst hst
  have hlen : h.index < s.indices.length := by
    by_contra hcon
    push_neg at hcon
    rw [List.getElem?_eq_none hcon] at hg
    exact Option.noConfusion hg
  apply gi_is_live_iff.mpr
  refine ⟨g + 1, ?_, ?_⟩
  · simp only []
    rw [List.getElem?_set_self hlen]
  · subst hb
    simp

/-- A handle whose generation is strictly below its slot's current generation
stays dead across every sequence of calls: generations never decrease. -/
theorem dead_stays_dead {s s' : GenerationalIndices} {h : GenerationalIndex} {g : Nat}
    {ops : List Op}
    (hg : s.indices[h.index]? = some g) (hlt : h.generation < g)
    (hr : s.run? ops = some s') : s'.is_live? h = some false := by
  rcases run?_mono hr h.index g hg with ⟨g', hg', hle⟩
  apply gi_is_live_iff.mpr
  refine ⟨g', hg', ?_⟩
  have hne : h.generation ≠ g' := by omega
  simp [hne]

end Kyren.GenerationalIndices

namespace Kyren.GenerationalIndexArray

variable {α : Type}

theorem gia_is_live_iff {s : GenerationalIndexArray α} {h : GenerationalIndex} {b : Bool} :
    s.is_live? h = some b ↔
      ∃ e, s.elements[h.index]? = some e ∧ (h.generation == e.generation) = b := by
  simp only [is_live?, Option.map_eq_some']

theorem inv_empty : Inv (⟨[], []⟩ : GenerationalIndexArray α) [] := by
  refine ⟨List.nodup_nil, ?_, ?_, ?_⟩ <;> simp

theorem inv_new? {s s' : GenerationalIndexArray α} {issued : List GenerationalIndex}
    {v : α} {h : GenerationalIndex}
    (hinv : Inv s issued) (hs : s.new? v = some (h, s')) :
    Inv s' (issued ++ [h]) := by
  obtain ⟨hnd, hvac, hbound, hlive⟩ := hinv
  obtain ⟨elems, fr⟩ := s
  simp only at hnd hvac hbound hlive
  cases fr with
  | nil =>
    simp only [new?, Option.some_inj, Prod.mk.injEq] at hs
    obtain ⟨hh, hst⟩ := hs
    subst hh
    subst hst
    refine ⟨List.nodup_nil, by simp, ?_, ?_⟩
    · intro h' hmem
      rcases List.mem_append.mp hmem with hold | hnew
      · rcases hbound h' hold with ⟨e, he, hle⟩
        exact ⟨e, getElem?_append_single he, hle⟩
      · rcases List.mem_singleton.mp hnew with rfl
        refine ⟨⟨some v, 0⟩, ?_, le_refl 0⟩
        exact List.getElem?_concat_length elems ⟨some v, 0⟩
    · intro h' hmem hlv
      rcases List.mem_append.mp hmem with hold | hnew
      · rcases hbound h' hold with ⟨e, he, _⟩
        have he' : (elems ++ [⟨some v, 0⟩])[h'.index]? = some e := getElem?_append_single he
        rcases gia_is_live_iff.mp hlv with ⟨e2, he2, hb⟩
        rw [he'] at he2
        cases he2
        have hlvs : is_live? ⟨elems, []⟩ h' = some true :=
          gia_is_live_iff.mpr ⟨e, he, hb⟩
        rcases hlive h' hold hlvs with ⟨_, e3, he3, hge, hit⟩
        rw [he] at he3
        cases he3
        exact ⟨by simp, e, he', hge, hit⟩
      · rcases List.mem_singleton.mp hnew with rfl
        refine ⟨by simp, ⟨some v, 0⟩, ?_, rfl, by simp⟩
        exact List.getElem?_concat_length elems ⟨some v, 0⟩
  | cons i rest =>
    simp only [new?] at hs
    cases hi : elems[i]? with
    | none => rw [hi] at hs; simp at hs
    | some e =>
      rw [hi] at hs
      simp only [Option.some_inj, Prod.mk.injEq] at hs
      obtain ⟨hh, hst⟩ := hs
      subst hh
      subst hst
      have hlen : i < elems.length := getElem?_some_lt hi
      have hinotrest : i ∉ rest := (List.nodup_cons.mp hnd).1
      refine ⟨(List.nodup_cons.mp hnd).2, ?_, ?_, ?_⟩
      · intro j hj
        have hjne : j ≠ i := fun hcon => hinotrest (hcon ▸ hj)
        rcases hvac j (List.mem_cons_of_mem i hj) with ⟨ej, hej, hitj⟩
        refine ⟨ej, ?_, hitj⟩
        simp only []
        rw [List.getElem?_set_ne (fun hcon => hjne hcon.symm)]
        exact hej
      · intro h' hmem
        rcases List.mem_append.mp hmem with hold | hnew
        · rcases hbound h' hold with ⟨e', he', hle⟩
          by_cases hidx : h'.index = i
          · subst hidx
            rw [hi] at he'
            cases he'
            refine ⟨⟨some v, e.generation⟩, ?_, hle⟩
            simp only []
            rw [List.getElem?_set_self hlen]
          · refine ⟨e', ?_, hle⟩
            simp only []
            rw [List.getElem?_set_ne (fun hcon => hidx hcon.symm)]
            exact he'
        · rcases List.mem_singleton.mp hnew with rfl
          refine ⟨⟨some v, e.generation⟩, ?_, le_refl _⟩
          simp only []
          rw [List.getElem?_set_self hlen]
      · intro h' hmem hlv
        rcases List.mem_append.mp hmem with hold | hnew
        · by_cases hidx : h'.index = i
          · -- the handle points at the reused slot; it was live before the
            -- reallocation too, contradicting that the slot was free
            rcases gia_is_live_iff.mp hlv with ⟨e2, he2, hb⟩
            simp only [] at he2
            rw [hidx, List.getElem?_set_self hlen] at he2
            cases he2
            have hlvs : is_live? ⟨elems, i :: rest⟩ h' = some true := by
              apply gia_is_live_iff.mpr
              refine ⟨e, ?_, ?_⟩
              · simp only []
                rw [hidx]
                exact hi
              · simpa using hb
            rcases hlive h' hold hlvs with ⟨hnf, _⟩
            exact absurd (by rw [hidx]; exact List.mem_cons_self i rest) hnf
          · rcases gia_is_live_iff.mp hlv with ⟨e2, he2, hb⟩
            simp only [] at he2
            rw [List.getElem?_set_ne (fun hcon => hidx hcon.symm)] at he2
            have hlvs : is_live? ⟨elems, i :: rest⟩ h' = some true :=
              gia_is_live_iff.mpr ⟨e2, he2, hb⟩
            rcases hlive h' hold hlvs with ⟨hnf, e3, he3, hge, hit⟩
            rw [he2] at he3
            cases he3
            refine ⟨?_, e2, ?_, hge, hit⟩
            · exact fun hcon => hnf (List.mem_cons_of_mem i hcon)
            · simp only []
              rw [List.getElem?_set_ne (fun hcon => hidx hcon.symm)]
              exact he2
        · rcases List.mem_singleton.mp hnew with rfl
          refine ⟨hinotrest, ⟨some v, e.generation⟩, ?_, rfl, by simp⟩
          simp only []
          rw [List.getElem?_set_self hlen]

theorem inv_free? {s s' : GenerationalIndexArray α} {issued : List GenerationalIndex}
    {h : GenerationalIndex}
    (hinv : Inv s issued) (hmem : h ∈ issued) (hs : s.free? h = some s') :
    Inv s' issued := by
  obtain ⟨hnd, hvac, hbound, hlive⟩ := hinv
  unfold free? at hs
  cases hg : s.elements[h.index]? with
  | none => rw [hg] at hs; simp at hs
  | some e =>
    rw [hg] at hs
    simp only [] at hs
    by_cases hgen : h.generation = e.generation
    · rw [if_pos hgen] at hs
      unfold u32add1 at hs
      by_cases hlt : e.generation < U32MAX
      · rw [if_pos hlt] at hs
        simp only [Option.some_inj] at hs
        subst hs
        have hlv : s.is_live? h = some true :=
          gia_is_live_iff.mpr ⟨e, hg, by simp [hgen]⟩
        obtain ⟨hnotfree, _⟩ := hlive h hmem hlv
        have hlen : h.index < s.elements.length := getElem?_some_lt hg
        refine ⟨?_, ?_, ?_, ?_⟩
        · rw [List.nodup_append]
          exact ⟨hnd, List.nodup_singleton _, by
            intro a ha hcon
            rcases List.mem_singleton.mp hcon with rfl
            exact hnotfree ha⟩
        · intro i hi
          rcases List.mem_append.mp hi with hold | hone
          · have hne : i ≠ h.index := fun hcon => hnotfree (hcon ▸ hold)
            rcases hvac i hold with ⟨ei, hei, hit⟩
            refine ⟨ei, ?_, hit⟩
            simp only []
            rw [List.getElem?_set_ne (fun hcon => hne hcon.symm)]
            exact hei
          · rcases List.mem_singleton.mp hone with rfl
            refine ⟨⟨none, e.generation + 1⟩, ?_, rfl⟩
            simp only []
            rw [List.getElem?_set_self hlen]
        · intro h' hm
          rcases hbound h' hm with ⟨e', he', hle⟩
          by_cases hidx : h'.index = h.index
          · rw [hidx, hg] at he'
            cases he'
            refine ⟨⟨none, e.generation + 1⟩, ?_, le_trans hle (Nat.le_succ e.generation)⟩
            simp only []
            rw [hidx, List.getElem?_set_self hlen]
          · refine ⟨e', ?_, hle⟩
            simp only []
            rw [List.getElem?_set_ne (fun hcon => hidx hcon.symm)]
            exact he'
        · intro h' hm hlv'
          by_cases hidx : h'.index = h.index
          · rcases gia_is_live_iff.mp hlv' with ⟨e2, he2, hb⟩
            simp only [] at he2
            rw [hidx, List.getElem?_set_self hlen] at he2
            cases he2
            simp only [beq_iff_eq] at hb
            rcases hbound h' hm with ⟨e', he', hle⟩
            rw [hidx, hg] at he'
            cases he'
            omega
          · rcases gia_is_live_iff.mp hlv' with ⟨e2, he2, hb⟩
            simp only [] at he2
            rw [List.getElem?_set_ne (fun hcon => hidx hcon.symm)] at he2
            have hlvs : s.is_live? h' = some true :=
              gia_is_live_iff.mpr ⟨e2, he2, hb⟩
            rcases hlive h' hm hlvs with ⟨hnf, e3, he3, hge, hit⟩
            rw [he2] at he3
            cases he3
            refine ⟨?_, e2, ?_, hge, hit⟩
            · intro hcon
              rcases List.mem_append.mp hcon with hc | hc
              · exact hnf hc
              · exact hidx (List.mem_singleton.mp hc)
            · simp only []
              rw [List.getElem?_set_ne (fun hcon => hidx hcon.symm)]
              exact he2
      · rw [if_neg hlt] at hs
        simp at hs
    · rw [if_neg hgen] at hs
      simp at hs

theorem inv_runIssued? {s s' : GenerationalIndexArray α}
    {issued issued' : List GenerationalIndex} {ops : List (Op α)}
    (hinv : Inv s issued) (hr : runIssued? s issued ops = some (s', issued')) :
    Inv s' issued' := by
  induction ops generalizing s issued with
  | nil =>
    simp only [runIssued?, Option.some_inj, Prod.mk.injEq] at hr
    obtain ⟨h1, h2⟩ := hr
    subst h1
    subst h2
    exact hinv
  | cons op ops ih =>
    cases op with
    | alloc v =>
      simp only [runIssued?] at hr
      cases hstep : s.new? v with
      | none => rw [hstep] at hr; simp at hr
      | some p =>
        obtain ⟨h, s1⟩ := p
        rw [hstep] at hr
        simp only [] at hr
        exact ih (inv_new? hinv hstep) hr
    | free h =>
      simp only [runIssued?] at hr
      by_cases hm : h ∈ issued
      · rw [if_pos hm] at hr
        cases hstep : s.free? h with
        | none => rw [hstep] at hr; simp at hr
        | some s1 =>
          rw [hstep] at hr
          simp only [] at hr
          exact ih (inv_free? hinv hm hstep) hr
      · rw [if_neg hm] at hr
        simp at hr

end Kyren.GenerationalIndexArray

namespace Kyren.GenerationalIndices

/-- With a non-empty free queue, `new` pops the front index. -/
theorem gi_alloc_pop {s s' : GenerationalIndices} {i : Nat} {rest : List Nat}
    {h : GenerationalIndex}
    (hf : s.free = i :: rest) (hs : s.new? = some (h, s')) :
    h.index = i ∧ s'.free = rest := by
  obtain ⟨ind, fr⟩ := s
  simp only at hf
  subst hf
  simp only [new?] at hs
  cases hj : ind[i]? with
  | none => rw [hj] at hs; simp at hs
  | some g =>
    rw [hj] at hs
    simp only [Option.some_inj, Prod.mk.injEq] at hs
    obtain ⟨hh, hst⟩ := hs
    subst hh
    subst hst
    exact ⟨rfl, rfl⟩

end Kyren.GenerationalIndices

namespace Kyren.GenerationalIndexArray

variable {α : Type}

/-- The slot a freshly allocated handle denotes holds the inserted value at
the handle's captured generation. -/
theorem gia_new_entry {s s' : GenerationalIndexArray α} {v : α} {h : GenerationalIndex}
    (hs : s.new? v = some (h, s')) :
    s'.elements[h.index]? = some ⟨some v, h.generation⟩ := by
  obtain ⟨elems, fr⟩ := s
  cases fr with
  | nil =>
    simp only [new?, Option.some_inj, Prod.mk.injEq] at hs
    obtain ⟨hh, hst⟩ := hs
    subst hh
    subst hst
    exact List.getElem?_concat_length elems ⟨some v, 0⟩
  | cons i rest =>
    simp only [new?] at hs
    cases hi : elems[i]? with
    | none => rw [hi] at hs; simp at hs
    | some e =>
      rw [hi] at hs
      simp only [Option.some_inj, Prod.mk.injEq] at hs
      obtain ⟨hh, hst⟩ := hs
      subst hh
      subst hst
      simp only []
      rw [List.getElem?_set_self (getElem?_some_lt hi)]

/-- A successful `free` happened on a live handle and produced exactly: item
dropped, generation bumped, index pushed to the back of the free queue. -/
theorem gia_free_state {s s' : GenerationalIndexArray α} {h : GenerationalIndex}
    (hs : s.free? h = some s') :
    ∃ e, s.elements[h.index]? = some e ∧ h.generation = e.generation ∧
      e.generation < U32MAX ∧
      s' = ⟨s.elements.set h.index ⟨none, e.generation + 1⟩, s.free ++ [h.index]⟩ := by
  unfold free? at hs
  cases hg : s.elements[h.index]? with
  | none => rw [hg] at hs; simp at hs
  | some e =>
    rw [hg] at hs
    simp only [] at hs
    by_cases hgen : h.generation = e.generation
    · rw [if_pos hgen] at hs
      unfold u32add1 at hs
      by_cases hlt : e.generation < U32MAX
      · rw [if_pos hlt] at hs
        simp only [Option.some_inj] at hs
        exact ⟨e, rfl, hgen, hlt, hs.symm⟩
      · rw [if_neg hlt] at hs
        simp at hs
    · rw [if_neg hgen] at hs
      simp at hs

/-- Freeing a dead (but in-range) handle panics. -/
theorem gia_free_dead {s : GenerationalIndexArray α} {h : GenerationalIndex}
    (hd : s.is_live? h = some false) : s.free? h = none := by
  rcases gia_is_live_iff.mp hd with ⟨e, he, hb⟩
  simp only [beq_eq_false_iff_ne, ne_eq] at hb
  unfold free?
  rw [he]
  simp [hb]

/-- With a non-empty free queue, `new` pops the front index. -/
theorem gia_alloc_pop {s s' : GenerationalIndexArray α} {i : Nat} {rest : List Nat}
    {v : α} {h : GenerationalIndex}
    (hf : s.free = i :: rest) (hs : s.new? v = some (h, s')) :
    h.index = i ∧ s'.free = rest := by
  obtain ⟨elems, fr⟩ := s
  simp only at hf
  subst hf
  simp only [new?] at hs
  cases hi : elems[i]? with
  | none => rw [hi] at hs; simp at hs
  | some e =>
    rw [hi] at hs
    simp only [Option.some_inj, Prod.mk.injEq] at hs
    obtain ⟨hh, hst⟩ := hs
    subst hh
    subst hst
    exact ⟨rfl, rfl⟩

end Kyren.GenerationalIndexArray

namespace MemAlloc.GenerationalPointersArray

variable {α : Type}

theorem gpa_is_live_iff {s : GenerationalPointersArray α} {h : GenerationalIndex}
    {b : Bool} :
    s.is_live? h = some b ↔
      ∃ e, s.entries[h.index]? = some e ∧ (h.generation == e.generation) = b := by
  simp only [is_live?, Option.map_eq_some']

/-- The entry a freshly allocated handle denotes holds the default value at
the handle's captured generation. -/
theorem gpa_allocate_entry {s s' : GenerationalPointersArray α} {d : α} {h : GenerationalIndex}
    (hs : s.allocate? d = some (h, s')) :
    s'.entries[h.index]? = some ⟨h.generation, some d⟩ := by
  obtain ⟨ents, fr⟩ := s
  cases fr with
  | nil =>
    simp only [allocate?, Option.some_inj, Prod.mk.injEq] at hs
    obtain ⟨hh, hst⟩ := hs
    subst hh
    subst hst
    exact List.getElem?_concat_length ents ⟨0, some d⟩
  | cons i rest =>
    simp only [allocate?] at hs
    cases hi : ents[i]? with
    | none => rw [hi] at hs; simp at hs
    | some e =>
      rw [hi] at hs
      simp only [Option.some_inj, Prod.mk.injEq] at hs
      obtain ⟨hh, hst⟩ := hs
      subst hh
      subst hst
      simp only []
      rw [List.getElem?_set_self (getElem?_some_lt hi)]

/-- With a non-empty free stack, `allocate` pops the top index. -/
theorem gpa_allocate_pop {s s' : GenerationalPointersArray α} {i : Nat} {rest : List Nat}
    {d : α} {h : GenerationalIndex}
    (hf : s.free = i :: rest) (hs : s.allocate? d = some (h, s')) :
    h.index = i ∧ s'.free = rest := by
  obtain ⟨ents, fr⟩ := s
  simp only at hf
  subst hf
  simp only [allocate?] at hs
  cases hi : ents[i]? with
  | none => rw [hi] at hs; simp at hs
  | some e =>
    rw [hi] at hs
    simp only [Option.some_inj, Prod.mk.injEq] at hs
    obtain ⟨hh, hst⟩ := hs
    subst hh
    subst hst
    exact ⟨rfl, rfl⟩

/-- A successful `free` happened on a live handle and produced exactly:
generation bumped, memory dropped, index pushed on top of the free stack. -/
theorem gpa_free_state {s s' : GenerationalPointersArray α} {h : GenerationalIndex}
    (hs : s.free? h = some s') :
    ∃ e, s.entries[h.index]? = some e ∧ h.generation = e.generation ∧
      e.generation < U32MAX ∧
      s' = ⟨s.entries.set h.index ⟨e.generation + 1, none⟩, h.index :: s.free⟩ := by
  unfold free? at hs
  cases hg : s.entries[h.index]? with
  | none => rw [hg] at hs; simp at hs
  | some e =>
    rw [hg] at hs
    simp only [] at hs
    by_cases hgen : h.generation = e.generation
    · rw [if_pos hgen] at hs
      unfold u32add1 at hs
      by_cases hlt : e.generation < U32MAX
      · rw [if_pos hlt] at hs
        simp only [Option.some_inj] at hs
        exact ⟨e, rfl, hgen, hlt, hs.symm⟩
      · rw [if_neg hlt] at hs
        simp at hs
    · rw [if_neg hgen] at hs
      simp at hs

/-- Freeing a dead (but in-range) handle panics. -/
theorem gpa_free_dead {s : GenerationalPointersArray α} {h : GenerationalIndex}
    (hd : s.is_live? h = some false) : s.free? h = none := by
  rcases gpa_is_live_iff.mp hd with ⟨e, he, hb⟩
  simp only [beq_eq_false_iff_ne, ne_eq] at hb
  unfold free?
  rw [he]
  simp [hb]

/-- Freeing one handle does not change the liveness of a handle with a
different index. -/
theorem is_live?_free_other {s s' : GenerationalPointersArray α}
    {h h' : GenerationalIndex}
    (hl : s.is_live? h = some true) (hne : h'.index ≠ h.index)
    (hs : s.free? h' = some s') : s'.is_live? h = some true := by
  rcases gpa_free_state hs with ⟨e, he, hgen, hlt, hst⟩
  subst hst
  rcases gpa_is_live_iff.mp hl with ⟨e2, he2, hb⟩
  apply gpa_is_live_iff.mpr
  refine ⟨e2, ?_, hb⟩
  simp only []
  rw [List.getElem?_set_ne hne]
  exact he2

end MemAlloc.GenerationalPointersArray

namespace MemAlloc.EntityAllocator

variable {α : Type}

theorem ea_is_live_iff {s : EntityAllocator α} {p : EntityPtr α} {b : Bool} :
    s.is_live? p = some b ↔
      ∃ e, s.entries[p.addr]? = some e ∧ (p.generation == e.generation) = b := by
  simp only [is_live?, Option.map_eq_some']

/-- The block a freshly allocated pointer denotes holds the value produced
by the initialiser, at the pointer's captured generation. -/
theorem ea_allocate_entry {s s' : EntityAllocator α} {d : α} {f : Option α → α}
    {p : EntityPtr α}
    (hs : s.allocate? d f = some (p, s')) :
    ∃ c, s'.entries[p.addr]? = some ⟨p.generation, some (f c)⟩ := by
  obtain ⟨ents, fr⟩ := s
  cases fr with
  | nil =>
    simp only [allocate?, Option.some_inj, Prod.mk.injEq] at hs
    obtain ⟨hh, hst⟩ := hs
    subst hh
    subst hst
    exact ⟨some d, List.getElem?_concat_length ents ⟨0, some (f (some d))⟩⟩
  | cons a rest =>
    simp only [allocate?] at hs
    cases ha : ents[a]? with
    | none => rw [ha] at hs; simp at hs
    | some e =>
      rw [ha] at hs
      simp only [Option.some_inj, Prod.mk.injEq] at hs
      obtain ⟨hh, hst⟩ := hs
      subst hh
      subst hst
      refine ⟨e.item, ?_⟩
      simp only []
      rw [List.getElem?_set_self (getElem?_some_lt ha)]

/-- With a non-empty free stack, `allocate` pops the top address. -/
theorem ea_allocate_pop {s s' : EntityAllocator α} {a : Nat} {rest : List Nat}
    {d : α} {f : Option α → α} {p : EntityPtr α}
    (hf : s.free = a :: rest) (hs : s.allocate? d f = some (p, s')) :
    p.addr = a ∧ s'.free = rest := by
  obtain ⟨ents, fr⟩ := s
  simp only at hf
  subst hf
  simp only [allocate?] at hs
  cases ha : ents[a]? with
  | none => rw [ha] at hs; simp at hs
  | some e =>
    rw [ha] at hs
    simp only [Option.some_inj, Prod.mk.injEq] at hs
    obtain ⟨hh, hst⟩ := hs
    subst hh
    subst hst
    exact ⟨rfl, rfl⟩

/-- A successful `free` happened on a live pointer and produced exactly:
header generation bumped, value dropped, address pushed on the free
stack. -/
theorem ea_free_state {s s' : EntityAllocator α} {p : EntityPtr α}
    (hs : s.free? p = some s') :
    ∃ e, s.entries[p.addr]? = some e ∧ p.generation = e.generation ∧
      e.generation < U32MAX ∧
      s' = ⟨s.entries.set p.addr ⟨e.generation + 1, none⟩, p.addr :: s.free⟩ := by
  unfold free? at hs
  cases hg : s.entries[p.addr]? with
  | none => rw [hg] at hs; simp at hs
  | some e =>
    rw [hg] at hs
    simp only [] at hs
    by_cases hgen : p.generation = e.generation
    · rw [if_pos hgen] at hs
      unfold u32add1 at hs
      by_cases hlt : e.generation < U32MAX
      · rw [if_pos hlt] at hs
        simp only [Option.some_inj] at hs
        exact ⟨e, rfl, hgen, hlt, hs.symm⟩
      · rw [if_neg hlt] at hs
        simp at hs
    · rw [if_neg hgen] at hs
      simp at hs

/-- Freeing a dead pointer panics. -/
theorem ea_free_dead {s : EntityAllocator α} {p : EntityPtr α}
    (hd : s.is_live? p = some false) : s.free? p = none := by
  rcases ea_is_live_iff.mp hd with ⟨e, he, hb⟩
  simp only [beq_eq_false_iff_ne, ne_eq] at hb
  unfold free?
  rw [he]
  simp [hb]

/-- With debug assertions enabled, dereferencing a dead pointer panics. -/
theorem ea_deref_dead {s : EntityAllocator α} {p : EntityPtr α}
    (hd : s.is_live? p = some false) : deref? true s p = none := by
  rcases ea_is_live_iff.mp hd with ⟨e, he, hb⟩
  simp only [beq_eq_false_iff_ne, ne_eq] at hb
  unfold deref?
  rw [he]
  simp [hb]

end MemAlloc.EntityAllocator

namespace MemAlloc.InPlaceMemoryAllocator

variable {α : Type}

theorem ipma_is_live_iff {s : InPlaceMemoryAllocator α} {h : GenerationalIndex}
    {b : Bool} :
    s.is_live? h = some b ↔
      ∃ e, s.entries[h.index]? = some e ∧ (h.generation == e.generation) = b := by
  simp only [is_live?, Option.map_eq_some']

/-- The slot a freshly allocated handle denotes holds the default value at
the handle's captured generation. -/
theorem ipma_allocate_entry {s s' : InPlaceMemoryAllocator α} {d : α} {h : GenerationalIndex}
    (hs : s.allocate? d = some (h, s')) :
    s'.entries[h.index]? = some ⟨some d, h.generation⟩ := by
  obtain ⟨ents, fr⟩ := s
  cases fr with
  | nil =>
    simp only [allocate?, Option.some_inj, Prod.mk.injEq] at hs
    obtain ⟨hh, hst⟩ := hs
    subst hh
    subst hst
    exact List.getElem?_concat_length ents ⟨some d, 0⟩
  | cons i rest =>
    simp only [allocate?] at hs
    cases hi : ents[i]? with
    | none => rw [hi] at hs; simp at hs
    | some e =>
      rw [hi] at hs
      simp only [Option.some_inj, Prod.mk.injEq] at hs
      obtain ⟨hh, hst⟩ := hs
      subst hh
      subst hst
      simp only []
      rw [List.getElem?_set_self (getElem?_some_lt hi)]

/-- With a non-empty free stack, `allocate` pops the top index. -/
theorem ipma_allocate_pop {s s' : InPlaceMemoryAllocator α} {i : Nat} {rest : List Nat}
    {d : α} {h : GenerationalIndex}
    (hf : s.free = i :: rest) (hs : s.allocate? d = some (h, s')) :
    h.index = i ∧ s'.free = rest := by
  obtain ⟨ents, fr⟩ := s
  simp only at hf
  subst hf
  simp only [allocate?] at hs
  cases hi : ents[i]? with
  | none => rw [hi] at hs; simp at hs
  | some e =>
    rw [hi] at hs
    simp only [Option.some_inj, Prod.mk.injEq] at hs
    obtain ⟨hh, hst⟩ := hs
    subst hh
    subst hst
    exact ⟨rfl, rfl⟩

/-- A successful `free` happened on a live handle and produced exactly:
generation bumped, value dropped, index pushed on the free stack. -/
theorem ipma_free_state {s s' : InPlaceMemoryAllocator α} {h : GenerationalIndex}
    (hs : s.free? h = some s') :
    ∃ e, s.entries[h.index]? = some e ∧ h.generation = e.generation ∧
      e.generation < U32MAX ∧
      s' = ⟨s.entries.set h.index ⟨none, e.generation + 1⟩, h.index :: s.free⟩ := by
  unfold free? at hs
  cases hg : s.entries[h.index]? with
  | none => rw [hg] at hs; simp at hs
  | some e =>
    rw [hg] at hs
    simp only [] at hs
    by_cases hgen : h.generation = e.generation
    · rw [if_pos hgen] at hs
      unfold u32add1 at hs
      by_cases hlt : e.generation < U32MAX
      · rw [if_pos hlt] at hs
        simp only [Option.some_inj] at hs
        exact ⟨e, rfl, hgen, hlt, hs.symm⟩
      · rw [if_neg hlt] at hs
        simp at hs
    · rw [if_neg hgen] at hs
      simp at hs

/-- Freeing a dead (but in-range) handle panics. -/
theorem ipma_free_dead {s : InPlaceMemoryAllocator α} {h : GenerationalIndex}
    (hd : s.is_live? h = some false) : s.free? h = none := by
  rcases ipma_is_live_iff.mp hd with ⟨e, he, hb⟩
  simp only [beq_eq_false_iff_ne, ne_eq] at hb
  unfold free?
  rw [he]
  simp [hb]

/-- With debug assertions enabled, `get` on a dead handle panics. -/
theorem get?_dead {s : InPlaceMemoryAllocator α} {h : GenerationalIndex}
    (hd : s.is_live? h = some false) : get? true s h = none := by
  rcases ipma_is_live_iff.mp hd with ⟨e, he, hb⟩
  simp only [beq_eq_false_iff_ne, ne_eq] at hb
  unfold get?
  rw [he]
  simp [hb]

end MemAlloc.InPlaceMemoryAllocator

namespace PtrAlloc.Allocator

variable {α : Type}

theorem pa_is_live_iff {s : Allocator α} {p : EntityPtr α} {b : Bool} :
    s.is_live? p = some b ↔
      ∃ e, s.entries[p.addr]? = some e ∧ (p.generation == e.generation) = b := by
  simp only [is_live?, Option.map_eq_some']

/-- The entry a freshly allocated pointer denotes holds the written value at
the pointer's captured generation. -/
theorem pa_new_entry {s s' : Allocator α} {v : α} {p : EntityPtr α}
    (hs : s.new? v = some (p, s')) :
    s'.entries[p.addr]? = some ⟨p.generation, some v⟩ := by
  obtain ⟨ents, fr⟩ := s
  cases fr with
  | nil =>
    simp only [new?, Option.some_inj, Prod.mk.injEq] at hs
    obtain ⟨hh, hst⟩ := hs
    subst hh
    subst hst
    exact List.getElem?_concat_length ents ⟨0, some v⟩
  | cons a rest =>
    simp only [new?] at hs
    cases ha : ents[a]? with
    | none => rw [ha] at hs; simp at hs
    | some e =>
      rw [ha] at hs
      simp only [Option.some_inj, Prod.mk.injEq] at hs
      obtain ⟨hh, hst⟩ := hs
      subst hh
      subst hst
      simp only []
      rw [List.getElem?_set_self (getElem?_some_lt ha)]

/-- With a non-empty free stack, `new` pops the top address. -/
theorem pa_new_pop {s s' : Allocator α} {a : Nat} {rest : List Nat}
    {v : α} {p : EntityPtr α}
    (hf : s.free = a :: rest) (hs : s.new? v = some (p, s')) :
    p.addr = a ∧ s'.free = rest := by
  obtain ⟨ents, fr⟩ := s
  simp only at hf
  subst hf
  simp only [new?] at hs
  cases ha : ents[a]? with
  | none => rw [ha] at hs; simp at hs
  | some e =>
    rw [ha] at hs
    simp only [Option.some_inj, Prod.mk.injEq] at hs
    obtain ⟨hh, hst⟩ := hs
    subst hh
    subst hst
    exact ⟨rfl, rfl⟩

/-- Any successful `free` pushes the freed address on top of the free
stack. -/
theorem free?_push {dbg : Bool} {s s' : Allocator α} {p : EntityPtr α}
    (hs : free? dbg s p = some s') : s'.free = p.addr :: s.free := by
  unfold free? at hs
  cases hg : s.entries[p.addr]? with
  | none => rw [hg] at hs; simp at hs
  | some e =>
    rw [hg] at hs
    simp only [] at hs
    by_cases hc : dbg ∧ ¬(p.generation = e.generation)
    · rw [if_pos hc] at hs
      simp at hs
    · rw [if_neg hc] at hs
      unfold u32add1 at hs
      by_cases hlt : e.generation < U32MAX
      · rw [if_pos hlt] at hs
        simp only [Option.some_inj] at hs
        subst hs
        rfl
      · rw [if_neg hlt] at hs
        simp at hs

/-- With debug assertions enabled, freeing a dead pointer panics. -/
theorem pa_free_dead {s : Allocator α} {p : EntityPtr α}
    (hd : s.is_live? p = some false) : free? true s p = none := by
  rcases pa_is_live_iff.mp hd with ⟨e, he, hb⟩
  simp only [beq_eq_false_iff_ne, ne_eq] at hb
  unfold free?
  rw [he]
  simp [hb]

/-- With debug assertions enabled, dereferencing a dead pointer panics. -/
theorem pa_deref_dead {s : Allocator α} {p : EntityPtr α}
    (hd : s.is_live? p = some false) : deref? true s p = none := by
  rcases pa_is_live_iff.mp hd with ⟨e, he, hb⟩
  simp only [beq_eq_false_iff_ne, ne_eq] at hb
  unfold deref?
  rw [he]
  simp [hb]

end PtrAlloc.Allocator

/-- C1: over every sequence of allocate/free calls on the generational index
table, a handle is live immediately after the allocate that produced it; it
stays live across later allocations and across frees of handles with other
indices; it becomes dead when freed; and it stays dead after every later
sequence of calls, because slot generations never decrease. -/
theorem C1_handle_liveness_lifecycle :
    (∀ (s s' : Kyren.GenerationalIndices) (h : GenerationalIndex),
        s.new? = some (h, s') → s'.is_live? h = some true) ∧
    (∀ (s s' : Kyren.GenerationalIndices) (x h : GenerationalIndex),
        s.is_live? h = some true → s.new? = some (x, s') → s'.is_live? h = some true) ∧
    (∀ (s s' : Kyren.GenerationalIndices) (h h' : GenerationalIndex),
        s.is_live? h = some true → h'.index ≠ h.index → s.free? h' = some s' →
        s'.is_live? h = some true) ∧
    (∀ (s s' : Kyren.GenerationalIndices) (h : GenerationalIndex),
        s.is_live? h = some true → s.free? h = some s' → s'.is_live? h = some false) ∧
    (∀ (s s' s'' : Kyren.GenerationalIndices) (h : GenerationalIndex)
        (ops : List Kyren.GenerationalIndices.Op),
        s.is_live? h = some true → s.free? h = some s' → s'.run? ops = some s'' →
        s''.is_live? h = some false) := by
  refine ⟨?_, ?_, ?_, ?_, ?_⟩
  · intro s s' h hs
    exact Kyren.GenerationalIndices.new?_fresh_live hs
  · intro s s' x h hl hs
    exact Kyren.GenerationalIndices.new?_preserves_is_live hl hs
  · intro s s' h h' hl hne hs
    exact Kyren.GenerationalIndices.free?_preserves_live_other hl hne hs
  · intro s s' h hl hs
    exact Kyren.GenerationalIndices.free?_kills hl hs
  · intro s s' s'' h ops hl hs hr
    rcases Kyren.GenerationalIndices.free?_live_state hl hs with ⟨g, hg, hb, hst⟩
    subst hst
    have hlen : h.index < s.indices.length := by
      by_contra hcon
      push_neg at hcon
      rw [List.getElem?_eq_none hcon] at hg
      exact Option.noConfusion hg
    apply Kyren.GenerationalIndices.dead_stays_dead (g := g + 1) ?_ ?_ hr
    · simp only []
      rw [List.getElem?_set_self hlen]
    · omega

/-- Witness for C1: a concrete run. From the empty table, allocate handle
A = (0,0) (live), allocate (1,0) (A stays live), free (1,0) (A stays live),
free A (A dead), then one more allocate reusing slot 1 (A still dead). -/
theorem C1_handle_liveness_lifecycle_witness :
    Kyren.GenerationalIndices.is_live? ⟨[0], []⟩ ⟨0, 0⟩ = some true ∧
    Kyren.GenerationalIndices.is_live? ⟨[0, 0], []⟩ ⟨0, 0⟩ = some true ∧
    Kyren.GenerationalIndices.is_live? ⟨[0, 1], [1]⟩ ⟨0, 0⟩ = some true ∧
    Kyren.GenerationalIndices.is_live? ⟨[1, 1], [1, 0]⟩ ⟨0, 0⟩ = some false ∧
    Kyren.GenerationalIndices.is_live? ⟨[1, 1], [0]⟩ ⟨0, 0⟩ = some false :=
  ⟨C1_handle_liveness_lifecycle.1 ⟨[], []⟩ ⟨[0], []⟩ ⟨0, 0⟩ (by decide),
   C1_handle_liveness_lifecycle.2.1 ⟨[0], []⟩ ⟨[0, 0], []⟩ ⟨1, 0⟩ ⟨0, 0⟩
     (by decide) (by decide),
   C1_handle_liveness_lifecycle.2.2.1 ⟨[0, 0], []⟩ ⟨[0, 1], [1]⟩ ⟨0, 0⟩ ⟨1, 0⟩
     (by decide) (by decide) (by decide),
   C1_handle_liveness_lifecycle.2.2.2.1 ⟨[0, 1], [1]⟩ ⟨[1, 1], [1, 0]⟩ ⟨0, 0⟩
     (by decide) (by decide),
   C1_handle_liveness_lifecycle.2.2.2.2 ⟨[0, 1], [1]⟩ ⟨[1, 1], [1, 0]⟩ ⟨[1, 1], [0]⟩ ⟨0, 0⟩
     [Kyren.GenerationalIndices.Op.alloc] (by decide) (by decide) (by decide)⟩

/-- C2: in every state of the storage-backed `GenerationalIndexArray` that is
reachable from the empty allocator by a sequence of allocate/free calls,
every index in the free queue denotes a vacant slot (no stored value), and
every issued handle that is still live denotes an occupied slot whose
generation equals the handle's captured generation. -/
theorem C2_reachable_state_invariant :
    ∀ (α : Type) (ops : List (Kyren.GenerationalIndexArray.Op α))
      (s : Kyren.GenerationalIndexArray α) (issued : List GenerationalIndex),
      Kyren.GenerationalIndexArray.runIssued? ⟨[], []⟩ [] ops = some (s, issued) →
      (∀ i ∈ s.free, ∃ e, s.elements[i]? = some e ∧ e.item = none) ∧
      (∀ h ∈ issued, s.is_live? h = some true →
          ∃ e, s.elements[h.index]? = some e ∧
            e.generation = h.generation ∧ e.item ≠ none) := by
  intro α ops s issued hr
  have hinv := Kyren.GenerationalIndexArray.inv_runIssued?
    Kyren.GenerationalIndexArray.inv_empty hr
  exact ⟨hinv.2.1, fun h hm hl => (hinv.2.2.2 h hm hl).2⟩

/-- Witness for C2: run allocate 7, allocate 8, free (0,0) from the empty
allocator; the resulting state has free queue [0] with slot 0 vacant, and the
issued handle (1,0) is live and denotes the occupied slot holding 8. -/
theorem C2_reachable_state_invariant_witness :
    (∀ i ∈ (Kyren.GenerationalIndexArray.mk
        [⟨none, 1⟩, ⟨some 8, 0⟩] [0] : Kyren.GenerationalIndexArray Nat).free,
      ∃ e, (Kyren.GenerationalIndexArray.mk
        [⟨none, 1⟩, ⟨some 8, 0⟩] [0] : Kyren.GenerationalIndexArray Nat).elements[i]? =
          some e ∧ e.item = none) ∧
    (∀ h ∈ [(⟨0, 0⟩ : GenerationalIndex), ⟨1, 0⟩],
      (Kyren.GenerationalIndexArray.mk
        [⟨none, 1⟩, ⟨some 8, 0⟩] [0] : Kyren.GenerationalIndexArray Nat).is_live? h =
          some true →
      ∃ e, (Kyren.GenerationalIndexArray.mk
        [⟨none, 1⟩, ⟨some 8, 0⟩] [0] : Kyren.GenerationalIndexArray Nat).elements[h.index]? =
          some e ∧ e.generation = h.generation ∧ e.item ≠ none) :=
  C2_reachable_state_invariant Nat
    [Kyren.GenerationalIndexArray.Op.alloc 7, Kyren.GenerationalIndexArray.Op.alloc 8,
     Kyren.GenerationalIndexArray.Op.free ⟨0, 0⟩]
    ⟨[⟨none, 1⟩, ⟨some 8, 0⟩], [0]⟩ [⟨0, 0⟩, ⟨1, 0⟩] (by decide)

/-- C3: value-array scenario from the empty allocator: allocate A with v1,
allocate B with v2 (distinct indices), free A, allocate C with v3; then C
reuses A's index with generation A.generation + 1, get(A) is absent and
get(C) returns v3. -/
theorem C3_value_array_reuse_scenario :
    ∀ (α : Type) (v1 v2 v3 : α),
      ∃ (A B C : GenerationalIndex) (sA sB sF sC : Kyren.GenerationalIndexArray α),
        Kyren.GenerationalIndexArray.new? ⟨[], []⟩ v1 = some (A, sA) ∧
        Kyren.GenerationalIndexArray.new? sA v2 = some (B, sB) ∧
        A.index ≠ B.index ∧
        Kyren.GenerationalIndexArray.free? sB A = some sF ∧
        Kyren.GenerationalIndexArray.new? sF v3 = some (C, sC) ∧
        C.index = A.index ∧
        C.generation = A.generation + 1 ∧
        Kyren.GenerationalIndexArray.get? sC A = some none ∧
        Kyren.GenerationalIndexArray.get? sC C = some (some v3) := by
  intro α v1 v2 v3
  exact ⟨⟨0, 0⟩, ⟨1, 0⟩, ⟨0, 1⟩,
    ⟨[⟨some v1, 0⟩], []⟩,
    ⟨[⟨some v1, 0⟩, ⟨some v2, 0⟩], []⟩,
    ⟨[⟨none, 1⟩, ⟨some v2, 0⟩], [0]⟩,
    ⟨[⟨some v3, 1⟩, ⟨some v2, 0⟩], []⟩,
    rfl, rfl, by decide, rfl, rfl, rfl, rfl, rfl, rfl⟩

/-- C4 (amended): freeing a not-live handle panics unconditionally for
`GenerationalIndexArray`, `GenerationalPointersArray`, `EntityAllocator` and
`InPlaceMemoryAllocator` (their free functions call `panic!` on a dead
handle); for the pointer-based `Allocator` the check is a `debug_assert!`,
so freeing a dead pointer panics only when debug assertions are enabled. -/
theorem C4_free_dead_handle_panics :
    (∀ (α : Type) (s : Kyren.GenerationalIndexArray α) (h : GenerationalIndex),
        s.is_live? h = some false → s.free? h = none) ∧
    (∀ (α : Type) (s : MemAlloc.GenerationalPointersArray α) (h : GenerationalIndex),
        s.is_live? h = some false → s.free? h = none) ∧
    (∀ (α : Type) (s : MemAlloc.EntityAllocator α) (p : MemAlloc.EntityPtr α),
        s.is_live? p = some false → s.free? p = none) ∧
    (∀ (α : Type) (s : MemAlloc.InPlaceMemoryAllocator α) (h : GenerationalIndex),
        s.is_live? h = some false → s.free? h = none) ∧
    (∀ (α : Type) (s : PtrAlloc.Allocator α) (p : PtrAlloc.EntityPtr α),
        s.is_live? p = some false → PtrAlloc.Allocator.free? true s p = none) := by
  refine ⟨?_, ?_, ?_, ?_, ?_⟩
  · intro α s h hd
    exact Kyren.GenerationalIndexArray.gia_free_dead hd
  · intro α s h hd
    exact MemAlloc.GenerationalPointersArray.gpa_free_dead hd
  · intro α s p hd
    exact MemAlloc.EntityAllocator.ea_free_dead hd
  · intro α s h hd
    exact MemAlloc.InPlaceMemoryAllocator.ipma_free_dead hd
  · intro α s p hd
    exact PtrAlloc.Allocator.pa_free_dead hd

/-- Counterexample for C4 as stated: in the pointer-based `Allocator` the
double-free check is a `debug_assert!`; with debug assertions disabled
(release build) the second free of the same pointer does not panic and is
not a no-op: it silently bumps the generation again and pushes the address
on the free stack a second time. -/
theorem C4_free_dead_handle_panics_counterexample :
    PtrAlloc.Allocator.new? (⟨[], []⟩ : PtrAlloc.Allocator Nat) 42 =
      some (⟨0, 0⟩, ⟨[⟨0, some 42⟩], []⟩) ∧
    PtrAlloc.Allocator.free? false (⟨[⟨0, some 42⟩], []⟩ : PtrAlloc.Allocator Nat) ⟨0, 0⟩ =
      some ⟨[⟨1, none⟩], [0]⟩ ∧
    PtrAlloc.Allocator.is_live? (⟨[⟨1, none⟩], [0]⟩ : PtrAlloc.Allocator Nat) ⟨0, 0⟩ =
      some false ∧
    PtrAlloc.Allocator.free? false (⟨[⟨1, none⟩], [0]⟩ : PtrAlloc.Allocator Nat) ⟨0, 0⟩ =
      some ⟨[⟨2, none⟩], [0, 0]⟩ := by
  decide

/-- Witness for C4 (amended): each free function applied to a concrete dead
handle. -/
theorem C4_free_dead_handle_panics_witness :
    Kyren.GenerationalIndexArray.free?
      (⟨[⟨none, 1⟩], [0]⟩ : Kyren.GenerationalIndexArray Nat) ⟨0, 0⟩ = none ∧
    MemAlloc.GenerationalPointersArray.free?
      (⟨[⟨1, none⟩], [0]⟩ : MemAlloc.GenerationalPointersArray Nat) ⟨0, 0⟩ = none ∧
    MemAlloc.EntityAllocator.free?
      (⟨[⟨1, none⟩], [0]⟩ : MemAlloc.EntityAllocator Nat) ⟨0, 0⟩ = none ∧
    MemAlloc.InPlaceMemoryAllocator.free?
      (⟨[⟨none, 1⟩], [0]⟩ : MemAlloc.InPlaceMemoryAllocator Nat) ⟨0, 0⟩ = none ∧
    PtrAlloc.Allocator.free? true
      (⟨[⟨1, none⟩], [0]⟩ : PtrAlloc.Allocator Nat) ⟨0, 0⟩ = none :=
  ⟨C4_free_dead_handle_panics.1 Nat ⟨[⟨none, 1⟩], [0]⟩ ⟨0, 0⟩ (by decide),
   C4_free_dead_handle_panics.2.1 Nat ⟨[⟨1, none⟩], [0]⟩ ⟨0, 0⟩ (by decide),
   C4_free_dead_handle_panics.2.2.1 Nat ⟨[⟨1, none⟩], [0]⟩ ⟨0, 0⟩ (by decide),
   C4_free_dead_handle_panics.2.2.2.1 Nat ⟨[⟨none, 1⟩], [0]⟩ ⟨0, 0⟩ (by decide),
   C4_free_dead_handle_panics.2.2.2.2 Nat ⟨[⟨1, none⟩], [0]⟩ ⟨0, 0⟩ (by decide)⟩

/-- C5 (amended): with debug assertions enabled, every access through a dead
handle panics: dereferencing a dead `EntityPtr` in either pointer-based
allocator, and `InPlaceMemoryAllocator::get` on a dead handle, all hit a
`debug_assert!` and abort instead of returning an absent result. -/
theorem C5_dead_access_panics_in_debug :
    (∀ (α : Type) (s : MemAlloc.EntityAllocator α) (p : MemAlloc.EntityPtr α),
        s.is_live? p = some false → MemAlloc.EntityAllocator.deref? true s p = none) ∧
    (∀ (α : Type) (s : PtrAlloc.Allocator α) (p : PtrAlloc.EntityPtr α),
        s.is_live? p = some false → PtrAlloc.Allocator.deref? true s p = none) ∧
    (∀ (α : Type) (s : MemAlloc.InPlaceMemoryAllocator α) (h : GenerationalIndex),
        s.is_live? h = some false → MemAlloc.InPlaceMemoryAllocator.get? true s h = none) := by
  refine ⟨?_, ?_, ?_⟩
  · intro α s p hd
    exact MemAlloc.EntityAllocator.ea_deref_dead hd
  · intro α s p hd
    exact PtrAlloc.Allocator.pa_deref_dead hd
  · intro α s h hd
    exact MemAlloc.InPlaceMemoryAllocator.get?_dead hd

/-- Counterexample for C5 as stated: the liveness checks on access are
`debug_assert!`s, not mandatory checks; with debug assertions disabled a
dereference of a dead `EntityPtr`, and `InPlaceMemoryAllocator::get` on a
dead handle, proceed into the freed slot's memory instead of panicking. -/
theorem C5_dead_access_panics_in_debug_counterexample :
    MemAlloc.EntityAllocator.is_live?
      (⟨[⟨1, none⟩], [0]⟩ : MemAlloc.EntityAllocator Nat) ⟨0, 0⟩ = some false ∧
    MemAlloc.EntityAllocator.deref? false
      (⟨[⟨1, none⟩], [0]⟩ : MemAlloc.EntityAllocator Nat) ⟨0, 0⟩ = some none ∧
    MemAlloc.InPlaceMemoryAllocator.is_live?
      (⟨[⟨none, 1⟩], [0]⟩ : MemAlloc.InPlaceMemoryAllocator Nat) ⟨0, 0⟩ = some false ∧
    MemAlloc.InPlaceMemoryAllocator.get? false
      (⟨[⟨none, 1⟩], [0]⟩ : MemAlloc.InPlaceMemoryAllocator Nat) ⟨0, 0⟩ = some none := by
  decide

/-- Witness for C5 (amended): each access applied to a concrete dead
handle with debug assertions enabled. -/
theorem C5_dead_access_panics_in_debug_witness :
    MemAlloc.EntityAllocator.deref? true
      (⟨[⟨1, none⟩], [0]⟩ : MemAlloc.EntityAllocator Nat) ⟨0, 0⟩ = none ∧
    PtrAlloc.Allocator.deref? true
      (⟨[⟨1, none⟩], [0]⟩ : PtrAlloc.Allocator Nat) ⟨0, 0⟩ = none ∧
    MemAlloc.InPlaceMemoryAllocator.get? true
      (⟨[⟨none, 1⟩], [0]⟩ : MemAlloc.InPlaceMemoryAllocator Nat) ⟨0, 0⟩ = none :=
  ⟨C5_dead_access_panics_in_debug.1 Nat ⟨[⟨1, none⟩], [0]⟩ ⟨0, 0⟩ (by decide),
   C5_dead_access_panics_in_debug.2.1 Nat ⟨[⟨1, none⟩], [0]⟩ ⟨0, 0⟩ (by decide),
   C5_dead_access_panics_in_debug.2.2 Nat ⟨[⟨none, 1⟩], [0]⟩ ⟨0, 0⟩ (by decide)⟩

/-- C6: the table's allocate: with an empty free queue it appends one slot
with generation 0 and returns index = new length − 1 (the old length) and
generation 0; with a non-empty free queue it pops one free index and returns
it paired with that slot's current generation. -/
theorem C6_table_allocate_behaviour :
    (∀ (s : Kyren.GenerationalIndices), s.free = [] →
        s.new? = some (⟨s.indices.length, 0⟩, ⟨s.indices ++ [0], s.free⟩) ∧
        s.indices.length = (s.indices ++ [0]).length - 1) ∧
    (∀ (s : Kyren.GenerationalIndices) (i : Nat) (rest : List Nat) (g : Nat),
        s.free = i :: rest → s.indices[i]? = some g →
        s.new? = some (⟨i, g⟩, ⟨s.indices, rest⟩)) := by
  constructor
  · intro s hf
    obtain ⟨ind, fr⟩ := s
    simp only at hf
    subst hf
    constructor
    · simp [Kyren.GenerationalIndices.new?]
    · simp
  · intro s i rest g hf hg
    obtain ⟨ind, fr⟩ := s
    simp only at hf hg
    subst hf
    simp [Kyren.GenerationalIndices.new?, hg]

/-- Witness for C6: appending from a one-slot table with empty free queue,
and popping free index 1 (current generation 7) from a two-slot table. -/
theorem C6_table_allocate_behaviour_witness :
    (Kyren.GenerationalIndices.new? ⟨[5], []⟩ = some (⟨1, 0⟩, ⟨[5, 0], []⟩) ∧
      ([5] : List Nat).length = ([5] ++ [0] : List Nat).length - 1) ∧
    Kyren.GenerationalIndices.new? ⟨[3, 7], [1]⟩ = some (⟨1, 7⟩, ⟨[3, 7], []⟩) :=
  ⟨C6_table_allocate_behaviour.1 ⟨[5], []⟩ (by decide),
   C6_table_allocate_behaviour.2 ⟨[3, 7], [1]⟩ 1 [] 7 (by decide) (by decide)⟩

/-- C7: at the bare table layer, freeing a dead (in-range) handle is a
recoverable no-op: the state is returned unchanged and nothing aborts; after
a genuine free of a live handle, the handle is dead, and a second free of it
is again a no-op with `is_live` still false. -/
theorem C7_table_free_dead_is_noop :
    (∀ (s : Kyren.GenerationalIndices) (h : GenerationalIndex),
        s.is_live? h = some false → s.free? h = some s) ∧
    (∀ (s s' : Kyren.GenerationalIndices) (h : GenerationalIndex),
        s.is_live? h = some true → s.free? h = some s' →
        s'.is_live? h = some false ∧ s'.free? h = some s') := by
  constructor
  · intro s h hd
    exact Kyren.GenerationalIndices.free?_of_dead hd
  · intro s s' h hl hs
    have hdead := Kyren.GenerationalIndices.free?_kills hl hs
    exact ⟨hdead, Kyren.GenerationalIndices.free?_of_dead hdead⟩

/-- Witness for C7: freeing the dead handle (0,0) in a one-slot table at
generation 1 returns the state unchanged; freeing the live handle (0,0) in a
fresh one-slot table kills it, and the second free is a no-op. -/
theorem C7_table_free_dead_is_noop_witness :
    Kyren.GenerationalIndices.free? ⟨[1], [0]⟩ ⟨0, 0⟩ = some ⟨[1], [0]⟩ ∧
    (Kyren.GenerationalIndices.is_live? ⟨[1], [0]⟩ ⟨0, 0⟩ = some false ∧
      Kyren.GenerationalIndices.free? ⟨[1], [0]⟩ ⟨0, 0⟩ = some ⟨[1], [0]⟩) :=
  ⟨C7_table_free_dead_is_noop.1 ⟨[1], [0]⟩ ⟨0, 0⟩ (by decide),
   C7_table_free_dead_is_noop.2 ⟨[0], []⟩ ⟨[1], [0]⟩ ⟨0, 0⟩ (by decide) (by decide)⟩

/-- C8: round trip for every storage strategy: writing a value through a
freshly allocated handle (as the inserted value, through the returned
mutable reference, or through the init function) and reading it back via
that same handle yields exactly the value written. -/
theorem C8_round_trip :
    (∀ (α : Type) (v : α) (s s' : Kyren.GenerationalIndexArray α)
        (h : GenerationalIndex),
        s.new? v = some (h, s') → s'.get? h = some (some v)) ∧
    (∀ (α : Type) (d v : α) (s s1 s2 : MemAlloc.GenerationalPointersArray α)
        (h : GenerationalIndex),
        s.allocate? d = some (h, s1) → s1.put? h v = some s2 →
        s2.get? h = some (some v)) ∧
    (∀ (α : Type) (d v : α) (s s1 : MemAlloc.EntityAllocator α)
        (p : MemAlloc.EntityPtr α) (dbg : Bool),
        s.allocate? d (fun _ => v) = some (p, s1) →
        MemAlloc.EntityAllocator.deref? dbg s1 p = some (some v)) ∧
    (∀ (α : Type) (d v : α) (s s1 s2 : MemAlloc.InPlaceMemoryAllocator α)
        (h : GenerationalIndex) (dbg : Bool),
        s.allocate? d = some (h, s1) →
        MemAlloc.InPlaceMemoryAllocator.put? dbg s1 h v = some s2 →
        MemAlloc.InPlaceMemoryAllocator.get? dbg s2 h = some (some v)) ∧
    (∀ (α : Type) (v : α) (s s1 : PtrAlloc.Allocator α)
        (p : PtrAlloc.EntityPtr α) (dbg : Bool),
        s.new? v = some (p, s1) →
        PtrAlloc.Allocator.deref? dbg s1 p = some (some v)) := by
  refine ⟨?_, ?_, ?_, ?_, ?_⟩
  · intro α v s s' h hs
    have he := Kyren.GenerationalIndexArray.gia_new_entry hs
    unfold Kyren.GenerationalIndexArray.get?
    rw [he]
    simp
  · intro α d v s s1 s2 h hs hput
    have he := MemAlloc.GenerationalPointersArray.gpa_allocate_entry hs
    unfold MemAlloc.GenerationalPointersArray.put? at hput
    rw [he] at hput
    simp only [] at hput
    rw [if_pos trivial] at hput
    simp only [Option.some_inj] at hput
    subst hput
    unfold MemAlloc.GenerationalPointersArray.get?
    simp only []
    rw [List.getElem?_set_self (getElem?_some_lt he)]
    simp
  · intro α d v s s1 p dbg hs
    rcases MemAlloc.EntityAllocator.ea_allocate_entry hs with ⟨c, he⟩
    unfold MemAlloc.EntityAllocator.deref?
    rw [he]
    simp
  · intro α d v s s1 s2 h dbg hs hput
    have he := MemAlloc.InPlaceMemoryAllocator.ipma_allocate_entry hs
    unfold MemAlloc.InPlaceMemoryAllocator.put? at hput
    rw [he] at hput
    simp only [] at hput
    rw [if_neg (by simp)] at hput
    simp only [Option.some_inj] at hput
    subst hput
    unfold MemAlloc.InPlaceMemoryAllocator.get?
    simp only []
    rw [List.getElem?_set_self (getElem?_some_lt he)]
    simp
  · intro α v s s1 p dbg hs
    have he := PtrAlloc.Allocator.pa_new_entry hs
    unfold PtrAlloc.Allocator.deref?
    rw [he]
    simp

/-- Witness for C8: each strategy applied to a concrete fresh allocation of
the value 42 from its empty allocator. -/
theorem C8_round_trip_witness :
    Kyren.GenerationalIndexArray.get?
      (⟨[⟨some 42, 0⟩], []⟩ : Kyren.GenerationalIndexArray Nat) ⟨0, 0⟩ =
      some (some 42) ∧
    MemAlloc.GenerationalPointersArray.get?
      (⟨[⟨0, some 42⟩], []⟩ : MemAlloc.GenerationalPointersArray Nat) ⟨0, 0⟩ =
      some (some 42) ∧
    MemAlloc.EntityAllocator.deref? true
      (⟨[⟨0, some 42⟩], []⟩ : MemAlloc.EntityAllocator Nat) ⟨0, 0⟩ =
      some (some 42) ∧
    MemAlloc.InPlaceMemoryAllocator.get? true
      (⟨[⟨some 42, 0⟩], []⟩ : MemAlloc.InPlaceMemoryAllocator Nat) ⟨0, 0⟩ =
      some (some 42) ∧
    PtrAlloc.Allocator.deref? true
      (⟨[⟨0, some 42⟩], []⟩ : PtrAlloc.Allocator Nat) ⟨0, 0⟩ =
      some (some 42) :=
  ⟨C8_round_trip.1 Nat 42 ⟨[], []⟩ ⟨[⟨some 42, 0⟩], []⟩ ⟨0, 0⟩ (by decide),
   C8_round_trip.2.1 Nat 0 42 ⟨[], []⟩ ⟨[⟨0, some 0⟩], []⟩ ⟨[⟨0, some 42⟩], []⟩ ⟨0, 0⟩
     (by decide) (by decide),
   C8_round_trip.2.2.1 Nat 0 42 ⟨[], []⟩ ⟨[⟨0, some 42⟩], []⟩ ⟨0, 0⟩ true (by decide),
   C8_round_trip.2.2.2.1 Nat 0 42 ⟨[], []⟩ ⟨[⟨some 0, 0⟩], []⟩ ⟨[⟨some 42, 0⟩], []⟩
     ⟨0, 0⟩ true (by decide) (by decide),
   C8_round_trip.2.2.2.2 Nat 42 ⟨[], []⟩ ⟨[⟨0, some 42⟩], []⟩ ⟨0, 0⟩ true (by decide)⟩

/-- C9: free-list discipline: the kyren variants treat their `VecDeque` as a
queue (free appends the index at the back, allocate pops the front, so the
oldest freed slot is reused first), while the memory_allocators and
allocator_with_pointer variants treat their `Vec` as a stack (free pushes
and allocate pops at the same end, so the most recently freed slot is reused
first).  Concretely: after free(a) then free(b) on distinct live handles,
the next allocate returns a's index in the queue variants (starting from an
empty free list) and b's index/address in the stack variants. -/
theorem C9_free_list_discipline :
    (∀ (s s' : Kyren.GenerationalIndices) (h : GenerationalIndex),
        s.is_live? h = some true → s.free? h = some s' →
        s'.free = s.free ++ [h.index]) ∧
    (∀ (s s' : Kyren.GenerationalIndices) (i : Nat) (rest : List Nat)
        (h : GenerationalIndex),
        s.free = i :: rest → s.new? = some (h, s') →
        h.index = i ∧ s'.free = rest) ∧
    (∀ (α : Type) (s s' : Kyren.GenerationalIndexArray α) (h : GenerationalIndex),
        s.free? h = some s' → s'.free = s.free ++ [h.index]) ∧
    (∀ (α : Type) (s s' : Kyren.GenerationalIndexArray α) (i : Nat)
        (rest : List Nat) (v : α) (h : GenerationalIndex),
        s.free = i :: rest → s.new? v = some (h, s') →
        h.index = i ∧ s'.free = rest) ∧
    (∀ (α : Type) (s s' : MemAlloc.GenerationalPointersArray α) (h : GenerationalIndex),
        s.free? h = some s' → s'.free = h.index :: s.free) ∧
    (∀ (α : Type) (s s' : MemAlloc.GenerationalPointersArray α) (i : Nat)
        (rest : List Nat) (d : α) (h : GenerationalIndex),
        s.free = i :: rest → s.allocate? d = some (h, s') →
        h.index = i ∧ s'.free = rest) ∧
    (∀ (α : Type) (s s' : MemAlloc.EntityAllocator α) (p : MemAlloc.EntityPtr α),
        s.free? p = some s' → s'.free = p.addr :: s.free) ∧
    (∀ (α : Type) (s s' : MemAlloc.EntityAllocator α) (a : Nat) (rest : List Nat)
        (d : α) (f : Option α → α) (p : MemAlloc.EntityPtr α),
        s.free = a :: rest → s.allocate? d f = some (p, s') →
        p.addr = a ∧ s'.free = rest) ∧
    (∀ (α : Type) (s s' : MemAlloc.InPlaceMemoryAllocator α) (h : GenerationalIndex),
        s.free? h = some s' → s'.free = h.index :: s.free) ∧
    (∀ (α : Type) (s s' : MemAlloc.InPlaceMemoryAllocator α) (i : Nat)
        (rest : List Nat) (d : α) (h : GenerationalIndex),
        s.free = i :: rest → s.allocate? d = some (h, s') →
        h.index = i ∧ s'.free = rest) ∧
    (∀ (α : Type) (dbg : Bool) (s s' : PtrAlloc.Allocator α) (p : PtrAlloc.EntityPtr α),
        PtrAlloc.Allocator.free? dbg s p = some s' → s'.free = p.addr :: s.free) ∧
    (∀ (α : Type) (s s' : PtrAlloc.Allocator α) (a : Nat) (rest : List Nat)
        (v : α) (p : PtrAlloc.EntityPtr α),
        s.free = a :: rest → s.new? v = some (p, s') →
        p.addr = a ∧ s'.free = rest) ∧
    (∀ (s s1 s2 s3 : Kyren.GenerationalIndices) (a b h : GenerationalIndex),
        s.free = [] → s.is_live? a = some true → s.is_live? b = some true →
        a.index ≠ b.index →
        s.free? a = some s1 → s1.free? b = some s2 → s2.new? = some (h, s3) →
        h.index = a.index) ∧
    (∀ (α : Type) (d : α) (s s1 s2 s3 : MemAlloc.GenerationalPointersArray α)
        (a b h : GenerationalIndex),
        s.is_live? a = some true → s.is_live? b = some true → a.index ≠ b.index →
        s.free? a = some s1 → s1.free? b = some s2 → s2.allocate? d = some (h, s3) →
        h.index = b.index) := by
  refine ⟨?_, ?_, ?_, ?_, ?_, ?_, ?_, ?_, ?_, ?_, ?_, ?_, ?_, ?_⟩
  · intro s s' h hl hs
    rcases Kyren.GenerationalIndices.free?_live_state hl hs with ⟨g, hg, hgen, hst⟩
    subst hst
    rfl
  · intro s s' i rest h hf hs
    exact Kyren.GenerationalIndices.gi_alloc_pop hf hs
  · intro α s s' h hs
    rcases Kyren.GenerationalIndexArray.gia_free_state hs with ⟨e, he, hgen, hlt, hst⟩
    subst hst
    rfl
  · intro α s s' i rest v h hf hs
    exact Kyren.GenerationalIndexArray.gia_alloc_pop hf hs
  · intro α s s' h hs
    rcases MemAlloc.GenerationalPointersArray.gpa_free_state hs with ⟨e, he, hgen, hlt, hst⟩
    subst hst
    rfl
  · intro α s s' i rest d h hf hs
    exact MemAlloc.GenerationalPointersArray.gpa_allocate_pop hf hs
  · intro α s s' p hs
    rcases MemAlloc.EntityAllocator.ea_free_state hs with ⟨e, he, hgen, hlt, hst⟩
    subst hst
    rfl
  · intro α s s' a rest d f p hf hs
    exact MemAlloc.EntityAllocator.ea_allocate_pop hf hs
  · intro α s s' h hs
    rcases MemAlloc.InPlaceMemoryAllocator.ipma_free_state hs with ⟨e, he, hgen, hlt, hst⟩
    subst hst
    rfl
  · intro α s s' i rest d h hf hs
    exact MemAlloc.InPlaceMemoryAllocator.ipma_allocate_pop hf hs
  · intro α dbg s s' p hs
    exact PtrAlloc.Allocator.free?_push hs
  · intro α s s' a rest v p hf hs
    exact PtrAlloc.Allocator.pa_new_pop hf hs
  · intro s s1 s2 s3 a b h hf hla hlb hne hfa hfb halloc
    rcases Kyren.GenerationalIndices.free?_live_state hla hfa with ⟨g, hg, hgen, hs1⟩
    subst hs1
    have hlb1 := Kyren.GenerationalIndices.free?_preserves_live_other hlb hne hfa
    rcases Kyren.GenerationalIndices.free?_live_state hlb1 hfb with ⟨g2, hg2, hgen2, hs2⟩
    subst hs2
    have hfree : (Kyren.GenerationalIndices.mk
        ((s.indices.set a.index (g + 1)).set b.index (g2 + 1))
        ((s.free ++ [a.index]) ++ [b.index])).free = a.index :: [b.index] := by
      simp [hf]
    exact (Kyren.GenerationalIndices.gi_alloc_pop hfree halloc).1
  · intro α d s s1 s2 s3 a b h hla hlb hne hfa hfb halloc
    rcases MemAlloc.GenerationalPointersArray.gpa_free_state hfa with ⟨e, he, hgen, hlt, hs1⟩
    have hlb1 := MemAlloc.GenerationalPointersArray.is_live?_free_other hlb hne hfa
    rcases MemAlloc.GenerationalPointersArray.gpa_free_state hfb with ⟨e2, he2, hgen2, hlt2, hs2⟩
    subst hs1
    subst hs2
    have hfree : (MemAlloc.GenerationalPointersArray.mk
        ((s.entries.set a.index ⟨e.generation + 1, none⟩).set b.index ⟨e2.generation + 1, none⟩)
        (b.index :: (a.index :: s.free))).free = b.index :: (a.index :: s.free) := rfl
    exact (MemAlloc.GenerationalPointersArray.gpa_allocate_pop hfree halloc).1

/-- Witness for C9: every conjunct applied to a concrete state. -/
theorem C9_free_list_discipline_witness :
    (Kyren.GenerationalIndices.mk [1] [0]).free =
      (Kyren.GenerationalIndices.mk [0] []).free ++ [0] ∧
    ((⟨1, 7⟩ : GenerationalIndex).index = 1 ∧
      (Kyren.GenerationalIndices.mk [3, 7] []).free = []) ∧
    (Kyren.GenerationalIndexArray.mk [⟨none, 1⟩] [0] :
        Kyren.GenerationalIndexArray Nat).free =
      (Kyren.GenerationalIndexArray.mk [⟨some 5, 0⟩] [] :
        Kyren.GenerationalIndexArray Nat).free ++ [0] ∧
    ((⟨0, 1⟩ : GenerationalIndex).index = 0 ∧
      (Kyren.GenerationalIndexArray.mk [⟨some 6, 1⟩] [] :
        Kyren.GenerationalIndexArray Nat).free = []) ∧
    (MemAlloc.GenerationalPointersArray.mk [⟨1, none⟩] [0] :
        MemAlloc.GenerationalPointersArray Nat).free =
      0 :: (MemAlloc.GenerationalPointersArray.mk [⟨0, some 5⟩] [] :
        MemAlloc.GenerationalPointersArray Nat).free ∧
    ((⟨0, 1⟩ : GenerationalIndex).index = 0 ∧
      (MemAlloc.GenerationalPointersArray.mk [⟨1, some 6⟩] [] :
        MemAlloc.GenerationalPointersArray Nat).free = []) ∧
    (MemAlloc.EntityAllocator.mk [⟨1, none⟩] [0] :
        MemAlloc.EntityAllocator Nat).free =
      0 :: (MemAlloc.EntityAllocator.mk [⟨0, some 5⟩] [] :
        MemAlloc.EntityAllocator Nat).free ∧
    ((⟨0, 1⟩ : MemAlloc.EntityPtr Nat).addr = 0 ∧
      (MemAlloc.EntityAllocator.mk [⟨1, some 6⟩] [] :
        MemAlloc.EntityAllocator Nat).free = []) ∧
    (MemAlloc.InPlaceMemoryAllocator.mk [⟨none, 1⟩] [0] :
        MemAlloc.InPlaceMemoryAllocator Nat).free =
      0 :: (MemAlloc.InPlaceMemoryAllocator.mk [⟨some 5, 0⟩] [] :
        MemAlloc.InPlaceMemoryAllocator Nat).free ∧
    ((⟨0, 1⟩ : GenerationalIndex).index = 0 ∧
      (MemAlloc.InPlaceMemoryAllocator.mk [⟨some 6, 1⟩] [] :
        MemAlloc.InPlaceMemoryAllocator Nat).free = []) ∧
    (PtrAlloc.Allocator.mk [⟨1, none⟩] [0] : PtrAlloc.Allocator Nat).free =
      0 :: (PtrAlloc.Allocator.mk [⟨0, some 5⟩] [] : PtrAlloc.Allocator Nat).free ∧
    ((⟨0, 1⟩ : PtrAlloc.EntityPtr Nat).addr = 0 ∧
      (PtrAlloc.Allocator.mk [⟨1, some 6⟩] [] : PtrAlloc.Allocator Nat).free = []) ∧
    (⟨0, 1⟩ : GenerationalIndex).index = (⟨0, 0⟩ : GenerationalIndex).index ∧
    (⟨1, 1⟩ : GenerationalIndex).index = (⟨1, 0⟩ : GenerationalIndex).index :=
  ⟨C9_free_list_discipline.1 ⟨[0], []⟩ ⟨[1], [0]⟩ ⟨0, 0⟩ (by decide) (by decide),
   C9_free_list_discipline.2.1 ⟨[3, 7], [1]⟩ ⟨[3, 7], []⟩ 1 [] ⟨1, 7⟩
     (by decide) (by decide),
   C9_free_list_discipline.2.2.1 Nat ⟨[⟨some 5, 0⟩], []⟩ ⟨[⟨none, 1⟩], [0]⟩ ⟨0, 0⟩
     (by decide),
   C9_free_list_discipline.2.2.2.1 Nat ⟨[⟨none, 1⟩], [0]⟩ ⟨[⟨some 6, 1⟩], []⟩ 0 [] 6
     ⟨0, 1⟩ (by decide) (by decide),
   C9_free_list_discipline.2.2.2.2.1 Nat ⟨[⟨0, some 5⟩], []⟩ ⟨[⟨1, none⟩], [0]⟩ ⟨0, 0⟩
     (by decide),
   C9_free_list_discipline.2.2.2.2.2.1 Nat ⟨[⟨1, none⟩], [0]⟩ ⟨[⟨1, some 6⟩], []⟩ 0 [] 6
     ⟨0, 1⟩ (by decide) (by decide),
   C9_free_list_discipline.2.2.2.2.2.2.1 Nat ⟨[⟨0, some 5⟩], []⟩ ⟨[⟨1, none⟩], [0]⟩
     ⟨0, 0⟩ (by decide),
   C9_free_list_discipline.2.2.2.2.2.2.2.1 Nat ⟨[⟨1, none⟩], [0]⟩ ⟨[⟨1, some 6⟩], []⟩
     0 [] 6 (fun _ => 6) ⟨0, 1⟩ (by decide) (by decide),
   C9_free_list_discipline.2.2.2.2.2.2.2.2.1 Nat ⟨[⟨some 5, 0⟩], []⟩ ⟨[⟨none, 1⟩], [0]⟩
     ⟨0, 0⟩ (by decide),
   C9_free_list_discipline.2.2.2.2.2.2.2.2.2.1 Nat ⟨[⟨none, 1⟩], [0]⟩
     ⟨[⟨some 6, 1⟩], []⟩ 0 [] 6 ⟨0, 1⟩ (by decide) (by decide),
   C9_free_list_discipline.2.2.2.2.2.2.2.2.2.2.1 Nat true ⟨[⟨0, some 5⟩], []⟩
     ⟨[⟨1, none⟩], [0]⟩ ⟨0, 0⟩ (by decide),
   C9_free_list_discipline.2.2.2.2.2.2.2.2.2.2.2.1 Nat ⟨[⟨1, none⟩], [0]⟩
     ⟨[⟨1, some 6⟩], []⟩ 0 [] 6 ⟨0, 1⟩ (by decide) (by decide),
   C9_free_list_discipline.2.2.2.2.2.2.2.2.2.2.2.2.1 ⟨[0, 0], []⟩ ⟨[1, 0], [0]⟩
     ⟨[1, 1], [0, 1]⟩ ⟨[1, 1], [1]⟩ ⟨0, 0⟩ ⟨1, 0⟩ ⟨0, 1⟩ (by decide) (by decide)
     (by decide) (by decide) (by decide) (by decide) (by decide),
   C9_free_list_discipline.2.2.2.2.2.2.2.2.2.2.2.2.2 Nat 7
     ⟨[⟨0, some 1⟩, ⟨0, some 2⟩], []⟩ ⟨[⟨1, none⟩, ⟨0, some 2⟩], [0]⟩
     ⟨[⟨1, none⟩, ⟨1, none⟩], [1, 0]⟩ ⟨[⟨1, none⟩, ⟨1, some 7⟩], [0]⟩
     ⟨0, 0⟩ ⟨1, 0⟩ ⟨1, 1⟩ (by decide) (by decide) (by decide) (by decide)
     (by decide) (by decide)⟩

/-- C10: the index-based liveness checks index the backing vector with the
handle's index and have no bounds guard of their own: for any handle whose
index is at least the number of slots ever allocated, `is_live` (and the
operations that call it: `get`, `get_mut`, `free`) panics on the
out-of-range index instead of returning false. -/
theorem C10_out_of_range_handle_panics :
    (∀ (s : Kyren.GenerationalIndices) (h : GenerationalIndex),
        s.indices.length ≤ h.index →
        s.is_live? h = none ∧ s.free? h = none) ∧
    (∀ (α : Type) (s : Kyren.GenerationalIndexArray α) (h : GenerationalIndex),
        s.elements.length ≤ h.index →
        s.is_live? h = none ∧ s.get? h = none ∧ s.get_mut? h = none ∧
        s.free? h = none) ∧
    (∀ (α : Type) (s : MemAlloc.GenerationalPointersArray α) (h : GenerationalIndex),
        s.entries.length ≤ h.index →
        s.is_live? h = none ∧ s.get? h = none ∧ s.free? h = none) ∧
    (∀ (α : Type) (s : MemAlloc.InPlaceMemoryAllocator α) (h : GenerationalIndex)
        (dbg : Bool),
        s.entries.length ≤ h.index →
        s.is_live? h = none ∧ MemAlloc.InPlaceMemoryAllocator.get? dbg s h = none ∧
        s.free? h = none) := by
  refine ⟨?_, ?_, ?_, ?_⟩
  · intro s h hle
    have hn : s.indices[h.index]? = none := List.getElem?_eq_none hle
    constructor
    · simp [Kyren.GenerationalIndices.is_live?, hn]
    · unfold Kyren.GenerationalIndices.free?
      rw [hn]
  · intro α s h hle
    have hn : s.elements[h.index]? = none := List.getElem?_eq_none hle
    refine ⟨?_, ?_, ?_, ?_⟩
    · simp [Kyren.GenerationalIndexArray.is_live?, hn]
    · unfold Kyren.GenerationalIndexArray.get?
      rw [hn]
    · unfold Kyren.GenerationalIndexArray.get_mut?
      rw [hn]
    · unfold Kyren.GenerationalIndexArray.free?
      rw [hn]
  · intro α s h hle
    have hn : s.entries[h.index]? = none := List.getElem?_eq_none hle
    refine ⟨?_, ?_, ?_⟩
    · simp [MemAlloc.GenerationalPointersArray.is_live?, hn]
    · unfold MemAlloc.GenerationalPointersArray.get?
      rw [hn]
    · unfold MemAlloc.GenerationalPointersArray.free?
      rw [hn]
  · intro α s h dbg hle
    have hn : s.entries[h.index]? = none := List.getElem?_eq_none hle
    refine ⟨?_, ?_, ?_⟩
    · simp [MemAlloc.InPlaceMemoryAllocator.is_live?, hn]
    · unfold MemAlloc.InPlaceMemoryAllocator.get?
      rw [hn]
    · unfold MemAlloc.InPlaceMemoryAllocator.free?
      rw [hn]

/-- Witness for C10: the handle (0,0) applied to each empty allocator, whose
backing vector has no slot 0. -/
theorem C10_out_of_range_handle_panics_witness :
    (Kyren.GenerationalIndices.is_live? ⟨[], []⟩ ⟨0, 0⟩ = none ∧
      Kyren.GenerationalIndices.free? ⟨[], []⟩ ⟨0, 0⟩ = none) ∧
    (Kyren.GenerationalIndexArray.is_live?
        (⟨[], []⟩ : Kyren.GenerationalIndexArray Nat) ⟨0, 0⟩ = none ∧
      Kyren.GenerationalIndexArray.get?
        (⟨[], []⟩ : Kyren.GenerationalIndexArray Nat) ⟨0, 0⟩ = none ∧
      Kyren.GenerationalIndexArray.get_mut?
        (⟨[], []⟩ : Kyren.GenerationalIndexArray Nat) ⟨0, 0⟩ = none ∧
      Kyren.GenerationalIndexArray.free?
        (⟨[], []⟩ : Kyren.GenerationalIndexArray Nat) ⟨0, 0⟩ = none) ∧
    (MemAlloc.GenerationalPointersArray.is_live?
        (⟨[], []⟩ : MemAlloc.GenerationalPointersArray Nat) ⟨0, 0⟩ = none ∧
      MemAlloc.GenerationalPointersArray.get?
        (⟨[], []⟩ : MemAlloc.GenerationalPointersArray Nat) ⟨0, 0⟩ = none ∧
      MemAlloc.GenerationalPointersArray.free?
        (⟨[], []⟩ : MemAlloc.GenerationalPointersArray Nat) ⟨0, 0⟩ = none) ∧
    (MemAlloc.InPlaceMemoryAllocator.is_live?
        (⟨[], []⟩ : MemAlloc.InPlaceMemoryAllocator Nat) ⟨0, 0⟩ = none ∧
      MemAlloc.InPlaceMemoryAllocator.get? true
        (⟨[], []⟩ : MemAlloc.InPlaceMemoryAllocator Nat) ⟨0, 0⟩ = none ∧
      MemAlloc.InPlaceMemoryAllocator.free?
        (⟨[], []⟩ : MemAlloc.InPlaceMemoryAllocator Nat) ⟨0, 0⟩ = none) :=
  ⟨C10_out_of_range_handle_panics.1 ⟨[], []⟩ ⟨0, 0⟩ (by decide),
   C10_out_of_range_handle_panics.2.1 Nat ⟨[], []⟩ ⟨0, 0⟩ (by decide),
   C10_out_of_range_handle_panics.2.2.1 Nat ⟨[], []⟩ ⟨0, 0⟩ (by decide),
   C10_out_of_range_handle_panics.2.2.2 Nat ⟨[], []⟩ ⟨0, 0⟩ true (by decide)⟩
